import Mathlib

/-!
Shallow embedding of the tunneler multiplayer server core: the room data model
and methods of RoomManager.js, the lobby/game dispatch handlers of the room
server script, and the AI agent decision logic of AIPlayer.js.

Conventions of the embedding:
* JS numbers are modelled as `ℚ` where the source performs division, and as
  `Nat`/`Int` where the source only handles integers (ids, counters, sizes,
  millisecond timestamps).
* A JS `Map` is modelled as an insertion-ordered association list; `Map.set`
  replaces in place when the key exists and appends otherwise, `Map.delete`
  filters the key out, `Map.get` returns the first (unique) match.
* The ambient effects `Date.now()`, `Math.random()`, map generation and the
  per-socket transport are passed in explicitly (an `Env` record or plain
  arguments).  A transport send (`ws.sendUTF`) is fire-and-forget: the
  websocket library does not raise synchronously on a dying peer (write
  errors surface asynchronously), so a send is modelled as an emitted
  `Event` carrying an outcome bit taken from a failure oracle, and never as
  an exception.
* Distinct JSON lobby frames and game-protocol strings built by the server
  are modelled by distinct constructors of `Frame`; payload fields that some
  claim depends on are carried verbatim, a raw inbound game frame is carried
  as its string.
-/

namespace Tunneler

/-- First value of an association list (JS `Map.get`). -/
def mapGet {α β : Type} [DecidableEq α] (m : List (α × β)) (k : α) : Option β :=
  (m.find? (fun p => decide (p.1 = k))).map Prod.snd

/-- JS `Map.set`: replace in place when the key exists, append otherwise. -/
def mapSet {α β : Type} [DecidableEq α] (m : List (α × β)) (k : α) (v : β) : List (α × β) :=
  if m.any (fun p => decide (p.1 = k)) then
    m.map (fun p => if p.1 = k then (k, v) else p)
  else m ++ [(k, v)]

/-- JS `Map.delete`. -/
def mapDelete {α β : Type} [DecidableEq α] (m : List (α × β)) (k : α) : List (α × β) :=
  m.filter (fun p => decide (p.1 ≠ k))

/-- A live transport connection handle: an identity for the underlying socket
plus the `connected` flag the websocket library maintains. -/
structure WsConn where
  id : Nat
  connected : Bool
deriving DecidableEq

/-- The player profile stored with each room member (`playerData`). -/
structure PlayerData where
  name : String
deriving DecidableEq

/-- A room player entry: `{ws, playerData}` as stored by `addPlayer`. -/
structure PlayerObj where
  ws : WsConn
  playerData : PlayerData
deriving DecidableEq

/-- AI opponent descriptor from the room configuration (`{name, difficulty,
personality}`). -/
structure AIDescriptor where
  name : String
  difficulty : String
  personality : String
deriving DecidableEq

/-- The `aiOpponents` part of a room configuration. -/
structure AIOpponentsConfig where
  enabled : Bool
  count : Nat
  difficulty : String
  aiPlayers : List AIDescriptor
deriving DecidableEq

/-- Room configuration.  The spawn-protection / sanctuary / anti-camping
records are carried opaquely as flags the core only relays; the fields the
core reads (`maxPlayers`, `maxLives`, `aiOpponents`) are explicit. -/
structure RoomConfig where
  maxPlayers : Nat
  maxLives : Nat
  spawnProtection : Bool
  sanctuaryZones : Bool
  antiCamping : Bool
  aiOpponents : AIOpponentsConfig
deriving DecidableEq

/-- `getDefaultConfig()` of RoomManager.js. -/
def getDefaultConfig : RoomConfig :=
  { maxPlayers := 4
    maxLives := 3
    spawnProtection := true
    sanctuaryZones := true
    antiCamping := true
    aiOpponents := { enabled := false, count := 0, difficulty := "normal", aiPlayers := [] } }

/-- A partial configuration, shallow-merged by `updateConfig` (JS object
spread): a `none` field keeps the stored value. -/
structure RoomConfigPatch where
  maxPlayers : Option Nat
  maxLives : Option Nat
  spawnProtection : Option Bool
  sanctuaryZones : Option Bool
  antiCamping : Option Bool
  aiOpponents : Option AIOpponentsConfig
deriving DecidableEq

/-- `{...this.config, ...newConfig}`. -/
def RoomConfig.merge (c : RoomConfig) (p : RoomConfigPatch) : RoomConfig :=
  { maxPlayers := p.maxPlayers.getD c.maxPlayers
    maxLives := p.maxLives.getD c.maxLives
    spawnProtection := p.spawnProtection.getD c.spawnProtection
    sanctuaryZones := p.sanctuaryZones.getD c.sanctuaryZones
    antiCamping := p.antiCamping.getD c.antiCamping
    aiOpponents := p.aiOpponents.getD c.aiOpponents }

/-- Map data produced by the external MapManager collaborator; the three
raster layers are opaque to the core and omitted, the fields the core reads
(`width`, `height`, `seed`) are kept. -/
structure MapData where
  width : ℚ
  height : ℚ
  seed : Nat
deriving DecidableEq

/-- The room snapshot `getRoomData(room)` puts into lobby notifications. -/
structure RoomData where
  roomCode : String
  hostId : Option Nat
  players : List (Nat × String)
  config : RoomConfig
  gameStarted : Bool
deriving DecidableEq

/-- Wire frames.  Each constructor stands for one concrete JSON object or
game-protocol string the server builds; a raw inbound game-protocol frame is
kept verbatim as its string. -/
inductive Frame where
  | raw (s : String)
  | roomCreated (roomCode : String) (playerId : Nat) (room : RoomData)
  | roomJoined (roomCode : String) (playerId : Nat) (room : RoomData)
  | playerJoined (playerId : Nat) (playerName : String) (room : RoomData)
  | playerLeft (playerId : Nat) (playerName : String) (room : RoomData)
  | roomConfigUpdated (room : RoomData)
  | gameStarting (roomCode : String) (playerId : Option Nat)
  | errorFrame (error : String)
  | mapDataFrame (seed : Nat)
  | mapSeedFrame (seed : Nat)
  | initFrame (playerId : Nat) (name : String)
  | joinFrame (id : Nat)
  | nameFrame (id : Nat) (name : String)
  | baseFrame (id : Nat) (x y w h : Int)
  | moveFrame (id : Nat) (x y : Int) (dir : Nat) (energy health : ℚ) (score : Int)
      (name : String) (lives : Nat)
  | fireFrame (id : Nat)
deriving DecidableEq

/-- Observable effects of a handler: an attempted socket write (with the
outcome bit the failure oracle assigned to that socket), or the assignment
`room.gameStarted = true`, recorded to witness its position in the sequence
of effects. -/
inductive Event where
  | sendUTF (wsId : Nat) (frame : Frame) (ok : Bool)
  | setStarted (roomCode : String)
deriving DecidableEq

/-- The list of attempted deliveries of an event list, with outcome bits and
flag assignments erased. -/
def attemptsOf (evs : List Event) : List (Nat × Frame) :=
  evs.filterMap (fun e => match e with
    | .sendUTF w f _ => some (w, f)
    | .setStarted _ => none)

end Tunneler

namespace Tunneler

/-! ### AIPlayer.js -/

/-- A player entry of the world-state snapshot handed to an AI tick. -/
structure PlayerSnapshot where
  id : Nat
  x : ℚ
  y : ℚ
  health : ℚ
  energy : ℚ
  isAI : Bool
deriving DecidableEq

/-- A base entry of the world-state snapshot. -/
structure BaseSnapshot where
  id : Nat
  x : ℚ
  y : ℚ
  w : ℚ
  h : ℚ
deriving DecidableEq

/-- The world-state snapshot built by `processAIPlayers`. -/
structure GameState where
  players : List PlayerSnapshot
  bases : List BaseSnapshot
  mapWidth : ℚ
  mapHeight : ℚ
deriving DecidableEq

/-- Difficulty parameters (`getDifficultyParams`). -/
structure DifficultyParams where
  reactionTime : ℚ
  aimAccuracy : ℚ
  pathfindingDepth : ℚ
  aggressionLevel : ℚ
  retreatThreshold : ℚ
  energyManagement : ℚ
  firingFrequency : ℚ
deriving DecidableEq

/-- `getDifficultyParams()`: lookup by difficulty string, defaulting to
normal for an unknown tier. -/
def getDifficultyParams (difficulty : String) : DifficultyParams :=
  if difficulty = "easy" then
    { reactionTime := 800, aimAccuracy := 0.4, pathfindingDepth := 50,
      aggressionLevel := 0.3, retreatThreshold := 3, energyManagement := 0.5,
      firingFrequency := 0.2 }
  else if difficulty = "normal" then
    { reactionTime := 400, aimAccuracy := 0.7, pathfindingDepth := 100,
      aggressionLevel := 0.6, retreatThreshold := 5, energyManagement := 0.7,
      firingFrequency := 0.5 }
  else if difficulty = "hard" then
    { reactionTime := 150, aimAccuracy := 0.9, pathfindingDepth := 200,
      aggressionLevel := 0.8, retreatThreshold := 7, energyManagement := 0.9,
      firingFrequency := 0.8 }
  else
    { reactionTime := 400, aimAccuracy := 0.7, pathfindingDepth := 100,
      aggressionLevel := 0.6, retreatThreshold := 5, energyManagement := 0.7,
      firingFrequency := 0.5 }

/-- `getDecisionInterval()` in milliseconds, defaulting to 500. -/
def getDecisionInterval (difficulty : String) : Nat :=
  if difficulty = "easy" then 1000
  else if difficulty = "normal" then 500
  else if difficulty = "hard" then 200
  else 500

/-- A remembered enemy sighting (`knownEnemyPositions` entry). -/
structure EnemySighting where
  x : ℚ
  y : ℚ
  lastSeen : Nat
deriving DecidableEq

/-- The AI agent state (fields of the AIPlayer class). -/
structure AIPlayer where
  id : Nat
  name : String
  difficulty : String
  personality : String
  x : ℚ
  y : ℚ
  dir : Nat
  energy : ℚ
  health : ℚ
  score : Int
  lives : Nat
  target : Option PlayerSnapshot
  state : String
  lastDecision : Nat
  decisionInterval : Nat
  frameCounter : Nat
  knownEnemyPositions : List (Nat × EnemySighting)
  knownBases : List (Nat × BaseSnapshot)
  exploredAreas : List String
  lastFiredFrame : Nat
  params : DifficultyParams
deriving DecidableEq

/-- The AIPlayer constructor. -/
def AIPlayer.new (id : Nat) (name : String) (difficulty personality : String)
    (now : Nat) : AIPlayer :=
  { id, name, difficulty, personality
    x := 0, y := 0, dir := 2, energy := 1000, health := 10, score := 0, lives := 3
    target := none, state := "idle", lastDecision := now
    decisionInterval := getDecisionInterval difficulty, frameCounter := 0
    knownEnemyPositions := [], knownBases := [], exploredAreas := []
    lastFiredFrame := 0, params := getDifficultyParams difficulty }

/-- A nearby enemy as collected by `findNearbyEnemies`: the snapshot plus the
(squared) distance used for sorting.  The source stores the Euclidean
distance `sqrt(dx*dx+dy*dy)` and compares it with the radius; both values are
nonnegative, so comparing and ordering by the squared distance is the same
filter and the same ordering, and keeps the model inside `ℚ`. -/
structure NearbyEnemy where
  player : PlayerSnapshot
  distSq : ℚ
deriving DecidableEq

/-- Stable sort by a rational key, modelling the ES2019 guarantee that
`Array.prototype.sort` is stable: sort index-tagged entries by the
lexicographic order (key, original index), then drop the tags. -/
def stableSortBy {α : Type} (k : α → ℚ) (l : List α) : List α :=
  ((l.enum).insertionSort
    (fun a b => toLex (k a.2, a.1) ≤ toLex (k b.2, b.1))).map Prod.snd

/-- `findNearbyEnemies(players, radius)`: non-AI players other than self
within the radius, sorted by distance (ascending). -/
def AIPlayer.findNearbyEnemies (self : AIPlayer) (players : List PlayerSnapshot)
    (radius : ℚ) : List NearbyEnemy :=
  let nearby := players.filterMap (fun p =>
    if p.id ≠ self.id ∧ ¬ p.isAI then
      let dx := p.x - self.x
      let dy := p.y - self.y
      let dsq := dx * dx + dy * dy
      if dsq < radius * radius then some ⟨p, dsq⟩ else none
    else none)
  stableSortBy (fun e => e.distSq) nearby

/-- `selectTarget(enemies)`: personality-directed choice from the
distance-sorted nearby list; `balanced` re-sorts by health. -/
def AIPlayer.selectTarget (self : AIPlayer) (enemies : List NearbyEnemy) :
    Option PlayerSnapshot :=
  match enemies with
  | [] => none
  | e :: _ =>
    if self.personality = "aggressive" then some e.player
    else if self.personality = "defensive" then some e.player
    else if self.personality = "balanced" then
      ((stableSortBy (fun a => a.player.health) enemies).headD e).player
    else some e.player

/-- `updateKnowledge(players, bases)`: refresh the memory maps and mark the
current 50px grid cell explored. -/
def AIPlayer.updateKnowledge (self : AIPlayer) (players : List PlayerSnapshot)
    (bases : List BaseSnapshot) (now : Nat) : AIPlayer :=
  let kep := players.foldl (fun m p =>
    if p.id ≠ self.id then mapSet m p.id ⟨p.x, p.y, now⟩ else m)
    self.knownEnemyPositions
  let kb := bases.foldl (fun m b => mapSet m b.id b) self.knownBases
  let key := s!"{⌊self.x / 50⌋}_{⌊self.y / 50⌋}"
  let ea := if key ∈ self.exploredAreas then self.exploredAreas
            else self.exploredAreas ++ [key]
  { self with knownEnemyPositions := kep, knownBases := kb, exploredAreas := ea }

/-- `makeStrategicDecision(gameState)`: update knowledge, then run the state
machine.  `roll` is the value `Math.random()` produced for the aggression
check; `now` is `Date.now()` (used only by `updateKnowledge`). -/
def AIPlayer.makeStrategicDecision (self : AIPlayer) (gs : GameState)
    (roll : ℚ) (now : Nat) : AIPlayer :=
  let self := self.updateKnowledge gs.players gs.bases now
  let healthPercent := self.health / 10
  let energyPercent := self.energy / 1000
  let nearbyEnemies := self.findNearbyEnemies gs.players 150
  if healthPercent < 0.3 ∨ energyPercent < 0.2 then
    { self with state := "refueling" }
  else if 0 < nearbyEnemies.length ∧ healthPercent < 0.5 then
    { self with state := "retreating" }
  else if self.personality = "aggressive" ∧ 0 < nearbyEnemies.length then
    { self with state := "attacking", target := self.selectTarget nearbyEnemies }
  else if self.personality = "defensive" then
    { self with state := "defending" }
  else if energyPercent < self.params.energyManagement then
    { self with state := "refueling" }
  else if 0 < nearbyEnemies.length ∧ roll < self.params.aggressionLevel then
    { self with state := "attacking", target := self.selectTarget nearbyEnemies }
  else
    { self with state := "exploring" }

/-! ### RoomManager.js -/

/-- Modelled from the spec: the transient gameplay state of a player,
mirrored from the last game-protocol move frame it sent (tracked by the v2
server variant whose GameRoom class is not under src/); used only to answer
reconnect queries, never as authoritative simulation state. -/
structure TrackedState where
  x : Int
  y : Int
  dir : Int
  energy : Int
  health : Int
  score : Int
  name : Option String
  lives : Int
deriving DecidableEq

/-- One game room (the GameRoom class).  `playerGameStates` is the per-player
transient gameplay state of the v2 server variant (empty and unused in the v1
room). -/
structure GameRoom where
  roomCode : String
  hostId : Option Nat
  config : RoomConfig
  players : List (Nat × PlayerObj)
  aiPlayers : List AIPlayer
  trace : List Frame
  mapSeed : Nat
  mapData : Option MapData
  playerIdCounter : Nat
  gameStarted : Bool
  createdAt : Nat
  lastActivity : Nat
  playerGameStates : List (Nat × TrackedState)
deriving DecidableEq

/-- The GameRoom constructor (`new GameRoom(roomCode, hostId, config)` at
time `now`); `config || this.getDefaultConfig()`. -/
def GameRoom.new (roomCode : String) (hostId : Option Nat)
    (config : Option RoomConfig) (now : Nat) : GameRoom :=
  { roomCode, hostId
    config := config.getD getDefaultConfig
    players := [], aiPlayers := [], trace := []
    mapSeed := now / 1000, mapData := none
    playerIdCounter := 0, gameStarted := false
    createdAt := now, lastActivity := now
    playerGameStates := [] }

/-- Modelled from the spec: `updatePlayerGameState(playerId, gameState)` of
the v2 GameRoom (class not under src/): store the fields parsed from the
last move frame as the transient gameplay state of that player. -/
def GameRoom.updatePlayerGameState (room : GameRoom) (playerId : Nat)
    (gs : TrackedState) : GameRoom :=
  { room with playerGameStates := mapSet room.playerGameStates playerId gs }

/-- `addPlayer(ws, name)`: allocate `++playerIdCounter`, store the entry,
touch `lastActivity`, return the id. -/
def GameRoom.addPlayer (room : GameRoom) (ws : WsConn) (name : String)
    (now : Nat) : GameRoom × Nat :=
  let playerId := room.playerIdCounter + 1
  ({ room with
      playerIdCounter := playerId
      players := mapSet room.players playerId ⟨ws, ⟨name⟩⟩
      lastActivity := now }, playerId)

/-- `removePlayer(playerId)`. -/
def GameRoom.removePlayer (room : GameRoom) (playerId : Nat) (now : Nat) :
    GameRoom :=
  { room with players := mapDelete room.players playerId, lastActivity := now }

/-- `getPlayerCount()`. -/
def GameRoom.getPlayerCount (room : GameRoom) : Nat := room.players.length

/-- `isHost(playerId)`: strict equality against the stored host id (a
`null` host id compares unequal to every player id). -/
def GameRoom.isHost (room : GameRoom) (playerId : Nat) : Bool :=
  decide (some playerId = room.hostId)

/-- `canStart()`. -/
def GameRoom.canStart (room : GameRoom) : Bool :=
  decide (0 < room.players.length ∧
    room.players.length + room.config.aiOpponents.count ≤ room.config.maxPlayers)

/-- `updateConfig(newConfig)`: shallow merge, touch `lastActivity`. -/
def GameRoom.updateConfig (room : GameRoom) (patch : RoomConfigPatch)
    (now : Nat) : GameRoom :=
  { room with config := room.config.merge patch, lastActivity := now }

/-- `broadcastToRoom(message, excludePlayerId = null)`: one attempted send
per player entry whose id differs from the excluded id and whose connection
is in the connected state; `sendFail` is the transport failure oracle for
the attempt outcome bit. -/
def GameRoom.broadcastToRoom (room : GameRoom) (sendFail : Nat → Bool)
    (message : Frame) (excludePlayerId : Option Nat) : List Event :=
  room.players.filterMap (fun p =>
    if some p.1 ≠ excludePlayerId ∧ p.2.ws.connected then
      some (.sendUTF p.2.ws.id message (! sendFail p.2.ws.id))
    else none)

/-- `addToTrace(message)`. -/
def GameRoom.addToTrace (room : GameRoom) (message : Frame) : GameRoom :=
  { room with trace := room.trace ++ [message] }

/-- `getTrace()`. -/
def GameRoom.getTrace (room : GameRoom) : List Frame := room.trace

/-- `isActive()`: players present, or active within the last 30 minutes. -/
def GameRoom.isActive (room : GameRoom) (now : Nat) : Bool :=
  decide (0 < room.players.length ∨
    (now : Int) - (room.lastActivity : Int) < 30 * 60 * 1000)

/-- The room directory (the RoomManager class). -/
structure RoomManager where
  rooms : List (String × GameRoom)
  playerToRoom : List (Nat × String)
deriving DecidableEq

/-- The alphabet of `generateRoomCode` (visually ambiguous characters
excluded). -/
def roomCodeChars : List Char := "ABCDEFGHJKLMNPQRSTUVWXYZ23456789".toList

/-- One pass of the `generateRoomCode` loop body: six random alphabet
indices to six characters. -/
def generateRoomCodeOnce (rolls : List (Fin 32)) : String :=
  String.mk (rolls.map (fun r => roomCodeChars.getD r.val 'A'))

/-- `generateRoomCode()`: regenerate on collision.  The unbounded
recursion of the source is modelled on an explicit stream of random rolls
(six per attempt); `none` means the stream is exhausted, which the source
never observes (it retries forever). -/
def RoomManager.generateRoomCode (m : RoomManager) :
    List (List (Fin 32)) → Option String
  | [] => none
  | rolls :: rest =>
    let code := generateRoomCodeOnce rolls
    if (mapGet m.rooms code).isSome then m.generateRoomCode rest else some code

/-- `createRoom(hostId, config)`. -/
def RoomManager.createRoom (m : RoomManager) (hostId : Option Nat)
    (config : Option RoomConfig) (rollStream : List (List (Fin 32)))
    (now : Nat) : RoomManager × Option (String × GameRoom) :=
  match m.generateRoomCode rollStream with
  | none => (m, none)
  | some roomCode =>
    let room := GameRoom.new roomCode hostId config now
    ({ m with rooms := mapSet m.rooms roomCode room }, some (roomCode, room))

/-- `getRoom(roomCode)`: a single map access. -/
def RoomManager.getRoom (m : RoomManager) (roomCode : String) : Option GameRoom :=
  mapGet m.rooms roomCode

/-- `cleanupInactiveRooms()`: collect the codes of inactive rooms first,
then delete each, releasing the reverse `playerToRoom` mappings of the
players of a deleted room. -/
def RoomManager.cleanupInactiveRooms (m : RoomManager) (now : Nat) : RoomManager :=
  let roomsToDelete :=
    (m.rooms.filter (fun rc => ! rc.2.isActive now)).map Prod.fst
  roomsToDelete.foldl (fun acc roomCode =>
    match mapGet acc.rooms roomCode with
    | some room =>
      { rooms := mapDelete acc.rooms roomCode
        playerToRoom :=
          room.players.foldl (fun ptr p => mapDelete ptr p.1) acc.playerToRoom }
    | none => acc) m

/-! ### The room server script (dispatch loop and handlers) -/

/-- One discrete action emitted by an AI tick (`{type: 'move', dir}`,
`{type: 'fire'}`, `{type: 'dig'}`); a `none` direction models an absent
`dir` property. -/
inductive AIAction where
  | move (dir : Option Nat)
  | fire
  | dig
deriving DecidableEq

/-- JS `a || b` on an optional number: `undefined` and `0` are falsy. -/
def jsOrDir (d : Option Nat) (fallback : Nat) : Nat :=
  match d with
  | none => fallback
  | some n => if n = 0 then fallback else n

/-- JS `a?.f || b` on an optional rational: `undefined` and `0` are falsy. -/
def jsOrNum (v : Option ℚ) (fallback : ℚ) : ℚ :=
  match v with
  | none => fallback
  | some q => if q = 0 then fallback else q

/-- JS `a || b` on an optional string: `undefined` and the empty string are
falsy. -/
def jsOrStr (v : Option String) (fallback : String) : String :=
  match v with
  | none => fallback
  | some s => if s = "" then fallback else s

/-- The ambient effects a handler draws on: the clock, the per-socket
transport failure oracle, the external map generator (`none` = module
absent or generation raised, leaving `mapData` null), and the AI update
step.  `aiUpdate` stands for `AIPlayer.update` of AIPlayer.js, whose
tactical layer draws on `Math.random()`; the theorems below quantify over
every update function, which subsumes the one of the source. -/
structure Env where
  now : Nat
  sendFail : Nat → Bool
  mapGen : Nat → Option MapData
  aiUpdate : AIPlayer → GameState → AIPlayer × List AIAction

/-- The registry entry `connectionToPlayer.get(ws)`. -/
structure PlayerInfo where
  playerId : Nat
  roomCode : String
deriving DecidableEq

/-- The whole server state: the room directory plus the connection
registry, keyed by socket identity. -/
structure ServerState where
  roomManager : RoomManager
  connectionToPlayer : List (Nat × PlayerInfo)
deriving DecidableEq

/-- Write a mutated room back under its directory key (JS mutates the
object held in the map in place). -/
def ServerState.putRoom (s : ServerState) (code : String) (room : GameRoom) :
    ServerState :=
  { s with roomManager :=
      { s.roomManager with rooms := mapSet s.roomManager.rooms code room } }

/-- `sendJSON(ws, data)`: send only when the connection is in the connected
state. -/
def sendJSON (sendFail : Nat → Bool) (ws : WsConn) (f : Frame) : List Event :=
  if ws.connected then [.sendUTF ws.id f (! sendFail ws.id)] else []

/-- `sendError(ws, error)`. -/
def sendError (sendFail : Nat → Bool) (ws : WsConn) (error : String) :
    List Event :=
  sendJSON sendFail ws (.errorFrame error)

/-- `getRoomData(room)`. -/
def getRoomData (room : GameRoom) : RoomData :=
  { roomCode := room.roomCode
    hostId := room.hostId
    players := room.players.map (fun p => (p.1, p.2.playerData.name))
    config := room.config
    gameStarted := room.gameStarted }

/-- The per-action body of the `processAIPlayers` update loop: a move is
bucketed into a (dx, dy) unit step from the numeric-keypad direction, the
position is clamped to the fixed constants x ∈ [10, 1190], y ∈ [10, 590],
and the resulting move frame carries the floored clamped position; a fire
action emits a fire frame; a dig action only consumes energy. -/
def applyAIAction (ai : AIPlayer) (a : AIAction) : AIPlayer × Option Frame :=
  match a with
  | .move d =>
    let dir := jsOrDir d ai.dir
    let dx : ℚ := if dir = 9 ∨ dir = 6 ∨ dir = 3 then 1
                  else if dir = 7 ∨ dir = 4 ∨ dir = 1 then -1 else 0
    let dy : ℚ := if dir = 1 ∨ dir = 2 ∨ dir = 3 then 1
                  else if dir = 9 ∨ dir = 8 ∨ dir = 7 then -1 else 0
    let ai := { ai with
      x := max 10 (min 1190 (ai.x + dx))
      y := max 10 (min 590 (ai.y + dy))
      dir := dir }
    (ai, some (.moveFrame ai.id ⌊ai.x⌋ ⌊ai.y⌋ ai.dir ai.energy ai.health
      ai.score ai.name ai.lives))
  | .fire => (ai, some (.fireFrame ai.id))
  | .dig => ({ ai with energy := max 0 (ai.energy - 1) }, none)

/-- Run the action list of one AI through `applyAIAction`, collecting the
emitted frames in order. -/
def runAIActions (ai : AIPlayer) (acts : List AIAction) :
    AIPlayer × List Frame :=
  acts.foldl (fun st a =>
    let r := applyAIAction st.1 a
    (r.1, st.2 ++ r.2.toList)) (ai, [])

/-- The world-state snapshot `processAIPlayers` builds: human players with
placeholder position fields, AI players with their live fields, one
40 × 40 base per participant (placeholder positions for humans, the
announced base for an AI). -/
def buildGameState (room : GameRoom) : GameState :=
  { players :=
      room.players.map (fun p => ⟨p.1, 0, 0, 10, 1000, false⟩) ++
      room.aiPlayers.map (fun ai => ⟨ai.id, ai.x, ai.y, ai.health, ai.energy, true⟩)
    bases :=
      room.players.map (fun p => ⟨p.1, 0, 0, 40, 40⟩) ++
      room.aiPlayers.map (fun ai => ⟨ai.id, (⌊ai.x - 20⌋ : ℤ), (⌊ai.y - 20⌋ : ℤ), 40, 40⟩)
    mapWidth := jsOrNum (room.mapData.map (fun md => md.width)) 1200
    mapHeight := jsOrNum (room.mapData.map (fun md => md.height)) 600 }

/-- `processAIPlayers(room)`: return early unless the game started and AI
agents exist; build the snapshot once; then for each agent run its update
and apply its actions, broadcasting each emitted frame to the whole room
(no exclusion) and appending it to the trace. -/
def processAIPlayers (room : GameRoom) (env : Env) : GameRoom × List Event :=
  if ¬ room.gameStarted ∨ room.aiPlayers.length = 0 then (room, [])
  else
    let gs := buildGameState room
    let results := room.aiPlayers.map (fun ai =>
      let u := env.aiUpdate ai gs
      runAIActions u.1 u.2)
    let frames := (results.map Prod.snd).flatten
    let events := frames.flatMap (fun f => room.broadcastToRoom env.sendFail f none)
    ({ room with aiPlayers := results.map Prod.fst
                 trace := room.trace ++ frames }, events)

/-- `initializeAIPlayers(room)` (the variant that announces bases): create
each configured agent with a spread-out starting position, append its
J/N/B/M frames to the trace, then broadcast the same four frames for every
agent to each connected player. -/
def initializeAIPlayers (room : GameRoom) (env : Env) : GameRoom × List Event :=
  let aiConfig := room.config.aiOpponents
  let room1 := aiConfig.aiPlayers.enum.foldl (fun r ia =>
    let index := ia.1
    let cfg := ia.2
    let aiId := 1000 + room.playerIdCounter + index
    let ai0 := AIPlayer.new aiId cfg.name cfg.difficulty cfg.personality env.now
    let mapWidth := jsOrNum (r.mapData.map (fun md => md.width)) 1200
    let mapHeight := jsOrNum (r.mapData.map (fun md => md.height)) 600
    let baseSpacing := mapWidth / ((aiConfig.count : ℚ) + (r.players.length : ℚ) + 1)
    let ai := { ai0 with
      x := baseSpacing * ((r.players.length : ℚ) + (index : ℚ) + 1) + 5
      y := mapHeight / 2 + (if index % 2 = 0 then (100 : ℚ) else -100) }
    let r1 := { r with aiPlayers := r.aiPlayers ++ [ai] }
    ((((r1.addToTrace (.joinFrame aiId)).addToTrace
        (.nameFrame aiId ai.name)).addToTrace
        (.baseFrame aiId ⌊ai.x - 20⌋ ⌊ai.y - 20⌋ 40 40)).addToTrace
        (.moveFrame aiId ⌊ai.x⌋ ⌊ai.y⌋ 2 1000 10 0 ai.name ai.lives))) room
  let events := room1.aiPlayers.flatMap (fun ai =>
    let frames := [Frame.joinFrame ai.id, .nameFrame ai.id ai.name,
      .baseFrame ai.id ⌊ai.x - 20⌋ ⌊ai.y - 20⌋ 40 40,
      .moveFrame ai.id ⌊ai.x⌋ ⌊ai.y⌋ 2 1000 10 0 ai.name ai.lives]
    room1.players.flatMap (fun p =>
      if p.2.ws.connected then
        frames.map (fun f => Event.sendUTF p.2.ws.id f (! env.sendFail p.2.ws.id))
      else []))
  (room1, events)

/-- `handleCreateRoom(ws, message)`. -/
def handleCreateRoom (s : ServerState) (env : Env) (ws : WsConn)
    (playerName : String) (config : Option RoomConfig)
    (rollStream : List (List (Fin 32))) : ServerState × List Event :=
  match s.roomManager.createRoom none config rollStream env.now with
  | (m1, none) => ({ s with roomManager := m1 }, [])
  | (m1, some cr) =>
    let roomCode := cr.1
    let (room1, playerId) := cr.2.addPlayer ws playerName env.now
    let room2 := { room1 with
      hostId := some playerId
      mapSeed := env.now / 1000
      mapData := env.mapGen (env.now / 1000) }
    let s1 : ServerState :=
      { roomManager := m1
        connectionToPlayer := mapSet s.connectionToPlayer ws.id ⟨playerId, roomCode⟩ }
    (s1.putRoom roomCode room2,
     sendJSON env.sendFail ws (.roomCreated roomCode playerId (getRoomData room2)))

/-- `handleJoinRoom(ws, message)` (v1: no late join, started rooms reject
the join). -/
def handleJoinRoom (s : ServerState) (env : Env) (ws : WsConn)
    (roomCode : String) (playerName : String) : ServerState × List Event :=
  match s.roomManager.getRoom roomCode with
  | none => (s, sendError env.sendFail ws "Room not found")
  | some room =>
    if room.config.maxPlayers ≤ room.players.length then
      (s, sendError env.sendFail ws "Room is full")
    else if room.gameStarted then
      (s, sendError env.sendFail ws "Game already started")
    else
      let (room1, playerId) := room.addPlayer ws playerName env.now
      let s1 : ServerState :=
        { s with connectionToPlayer :=
            mapSet s.connectionToPlayer ws.id ⟨playerId, room.roomCode⟩ }
      (s1.putRoom roomCode room1,
       sendJSON env.sendFail ws (.roomJoined room1.roomCode playerId (getRoomData room1)) ++
       room1.broadcastToRoom env.sendFail
         (.playerJoined playerId playerName (getRoomData room1)) (some playerId))

/-- `handleJoinRoom(ws, message)` (v2: joining a started room is a late
join redirected straight into game-state delivery). -/
def handleJoinRoomLate (s : ServerState) (env : Env) (ws : WsConn)
    (roomCode : String) (playerName : String) : ServerState × List Event :=
  match s.roomManager.getRoom roomCode with
  | none => (s, sendError env.sendFail ws "Room not found")
  | some room =>
    if room.config.maxPlayers ≤ room.players.length then
      (s, sendError env.sendFail ws "Room is full")
    else
      let (room1, playerId) := room.addPlayer ws playerName env.now
      let s1 : ServerState :=
        { s with connectionToPlayer :=
            mapSet s.connectionToPlayer ws.id ⟨playerId, room.roomCode⟩ }
      if room1.gameStarted then
        let joinMsg := Frame.joinFrame playerId
        let nameMsg := Frame.nameFrame playerId playerName
        let room2 := (room1.addToTrace joinMsg).addToTrace nameMsg
        (s1.putRoom roomCode room2,
         sendJSON env.sendFail ws (.gameStarting room1.roomCode (some playerId)) ++
         room1.broadcastToRoom env.sendFail joinMsg (some playerId) ++
         room1.broadcastToRoom env.sendFail nameMsg (some playerId))
      else
        (s1.putRoom roomCode room1,
         sendJSON env.sendFail ws (.roomJoined room1.roomCode playerId (getRoomData room1)) ++
         room1.broadcastToRoom env.sendFail
           (.playerJoined playerId playerName (getRoomData room1)) (some playerId))

/-- `handleLeaveRoom(ws)`. -/
def handleLeaveRoom (s : ServerState) (env : Env) (ws : WsConn) :
    ServerState × List Event :=
  match mapGet s.connectionToPlayer ws.id with
  | none => (s, [])
  | some pi =>
    match s.roomManager.getRoom pi.roomCode with
    | none => (s, [])
    | some room =>
      let playerName :=
        jsOrStr ((mapGet room.players pi.playerId).map (fun p => p.playerData.name)) "Unknown"
      let room1 := room.removePlayer pi.playerId env.now
      let s1 : ServerState :=
        { s with connectionToPlayer := mapDelete s.connectionToPlayer ws.id }
      (s1.putRoom pi.roomCode room1,
       room1.broadcastToRoom env.sendFail
         (.playerLeft pi.playerId playerName (getRoomData room1)) none)

/-- `handleUpdateConfig(ws, message)`. -/
def handleUpdateConfig (s : ServerState) (env : Env) (ws : WsConn)
    (patch : RoomConfigPatch) : ServerState × List Event :=
  match mapGet s.connectionToPlayer ws.id with
  | none => (s, [])
  | some pi =>
    match s.roomManager.getRoom pi.roomCode with
    | none => (s, [])
    | some room =>
      if ¬ room.isHost pi.playerId then
        (s, sendError env.sendFail ws "Only host can update configuration")
      else
        let room1 := room.updateConfig patch env.now
        (s.putRoom pi.roomCode room1,
         room1.broadcastToRoom env.sendFail (.roomConfigUpdated (getRoomData room1)) none)

/-- `handleStartGame(ws)`: guards (registry, room, host, start
eligibility), then AI initialization, then one attempted `GAME_STARTING`
send per player entry (each wrapped in its own try/catch in the source),
and only then the `gameStarted = true` assignment, recorded as the final
`setStarted` event. -/
def handleStartGame (s : ServerState) (env : Env) (ws : WsConn) :
    ServerState × List Event :=
  match mapGet s.connectionToPlayer ws.id with
  | none => (s, [])
  | some pi =>
    match s.roomManager.getRoom pi.roomCode with
    | none => (s, [])
    | some room =>
      if ¬ room.isHost pi.playerId then
        (s, sendError env.sendFail ws "Only host can start the game")
      else if ¬ room.canStart then
        (s, sendError env.sendFail ws "Cannot start game yet")
      else
        let ir :=
          if room.config.aiOpponents.enabled ∧ 0 < room.config.aiOpponents.count then
            initializeAIPlayers room env
          else (room, [])
        let room1 := ir.1
        let startMessage := Frame.gameStarting room.roomCode none
        let sendEvents := room1.players.map (fun p =>
          Event.sendUTF p.2.ws.id startMessage (! env.sendFail p.2.ws.id))
        let room2 := { room1 with gameStarted := true }
        (s.putRoom pi.roomCode room2,
         ir.2 ++ sendEvents ++ [Event.setStarted room.roomCode])

/-- `handleGameMessage(ws, data)` (v1): drop the frame unless the sender is
registered and its room resolves; then append the raw frame to the trace,
multicast it to the room excluding the sender, and run one inline AI tick
when the room has AI agents. -/
def handleGameMessage (s : ServerState) (env : Env) (ws : WsConn)
    (data : String) : ServerState × List Event :=
  match mapGet s.connectionToPlayer ws.id with
  | none => (s, [])
  | some pi =>
    match s.roomManager.getRoom pi.roomCode with
    | none => (s, [])
    | some room =>
      let room1 := room.addToTrace (.raw data)
      let evs := room1.broadcastToRoom env.sendFail (.raw data) (some pi.playerId)
      let ar :=
        if 0 < room1.aiPlayers.length then processAIPlayers room1 env
        else (room1, [])
      (s.putRoom pi.roomCode ar.1, evs ++ ar.2)

/-- Parsing of a `M <id> <x> <y> <dir> <energy> <health> <score> <b64name>
<lives>` frame by the v2 `handleGameMessage` (at least 9 space-separated
fields).  JS `parseInt` NaN corner cases on malformed numeric fields are
abstracted to 0; they only feed the stored transient state. -/
def parseMoveTracked (data : String) : Option (Nat × TrackedState) :=
  if data.startsWith "M " then
    let parts := data.splitOn " "
    if 9 ≤ parts.length then
      let g := fun (i : Nat) => ((parts.getD i "").toInt?).getD 0
      some ((g 1).toNat,
        { x := g 2, y := g 3, dir := g 4, energy := g 5, health := g 6
          score := g 7
          name := if parts.getD 8 "" ≠ "" then some (parts.getD 8 "") else none
          lives := if 10 ≤ parts.length then g 9 else 0 })
    else none
  else none

/-- `handleGameMessage(ws, data)` (v2): same guards and effects as v1, plus
tracking of the sender state parsed from a move frame before the trace
append. -/
def handleGameMessageV2 (s : ServerState) (env : Env) (ws : WsConn)
    (data : String) : ServerState × List Event :=
  match mapGet s.connectionToPlayer ws.id with
  | none => (s, [])
  | some pi =>
    match s.roomManager.getRoom pi.roomCode with
    | none => (s, [])
    | some room =>
      let room0 :=
        match parseMoveTracked data with
        | some pg => room.updatePlayerGameState pg.1 pg.2
        | none => room
      let room1 := room0.addToTrace (.raw data)
      let evs := room1.broadcastToRoom env.sendFail (.raw data) (some pi.playerId)
      let ar :=
        if 0 < room1.aiPlayers.length then processAIPlayers room1 env
        else (room1, [])
      (s.putRoom pi.roomCode ar.1, evs ++ ar.2)

/-- `handleGameConnect(ws, message)` + `initializePlayerInGame`: rebind the
player connection handle, then replay the trace, send the map payload (or
the seed fallback), the init frame and the name frame to the new connection
only. -/
def handleGameConnect (s : ServerState) (env : Env) (ws : WsConn)
    (roomCode : String) (playerId : Nat) : ServerState × List Event :=
  match s.roomManager.getRoom roomCode with
  | none => (s, sendError env.sendFail ws ("Room " ++ roomCode ++ " not found"))
  | some room =>
    if ¬ room.gameStarted then
      (s, sendError env.sendFail ws "Game not started yet")
    else
      match mapGet room.players playerId with
      | none => (s, sendError env.sendFail ws "Player not found in room")
      | some pobj =>
        let pobj1 := { pobj with ws := ws }
        let room1 := { room with players := mapSet room.players playerId pobj1 }
        let s1 : ServerState :=
          { s with connectionToPlayer :=
              mapSet s.connectionToPlayer ws.id ⟨playerId, room.roomCode⟩ }
        let playerName := jsOrStr (some pobj1.playerData.name) ("Player" ++ toString playerId)
        let send := fun (f : Frame) => Event.sendUTF ws.id f (! env.sendFail ws.id)
        let mapEv :=
          match room1.mapData with
          | some md => send (.mapDataFrame md.seed)
          | none => send (.mapSeedFrame room1.mapSeed)
        (s1.putRoom roomCode room1,
         room1.trace.map send ++ [mapEv, send (.initFrame playerId playerName),
           send (.nameFrame playerId playerName)])

/-- `handleDisconnect(ws)`: while started, a disconnect only clears the
registry entry (the lobby socket is being swapped for the game socket);
before start it removes the player and notifies the remaining players. -/
def handleDisconnect (s : ServerState) (env : Env) (ws : WsConn) :
    ServerState × List Event :=
  match mapGet s.connectionToPlayer ws.id with
  | none => (s, [])
  | some pi =>
    match s.roomManager.getRoom pi.roomCode with
    | none =>
      ({ s with connectionToPlayer := mapDelete s.connectionToPlayer ws.id }, [])
    | some room =>
      if room.gameStarted then
        ({ s with connectionToPlayer := mapDelete s.connectionToPlayer ws.id }, [])
      else
        let playerName :=
          jsOrStr ((mapGet room.players pi.playerId).map (fun p => p.playerData.name)) "Unknown"
        let room1 := room.removePlayer pi.playerId env.now
        let evs :=
          if 0 < room1.players.length then
            room1.broadcastToRoom env.sendFail
              (.playerLeft pi.playerId playerName (getRoomData room1)) none
          else []
        let s1 : ServerState :=
          { s with connectionToPlayer := mapDelete s.connectionToPlayer ws.id }
        (s1.putRoom pi.roomCode room1, evs)

/-- One dispatchable server operation: every room-mutating entry point of
the dispatch loop, including both join and game-message variants and the
two timers. -/
inductive ServerOp where
  | createRoom (ws : WsConn) (playerName : String) (config : Option RoomConfig)
      (rollStream : List (List (Fin 32)))
  | joinRoom (ws : WsConn) (roomCode : String) (playerName : String)
  | joinRoomLate (ws : WsConn) (roomCode : String) (playerName : String)
  | leaveRoom (ws : WsConn)
  | updateConfig (ws : WsConn) (patch : RoomConfigPatch)
  | startGame (ws : WsConn)
  | gameConnect (ws : WsConn) (roomCode : String) (playerId : Nat)
  | gameMessage (ws : WsConn) (data : String)
  | gameMessageV2 (ws : WsConn) (data : String)
  | disconnect (ws : WsConn)
  | cleanupTick
  | aiTick

/-- Apply one server operation.  The cleanup timer runs the directory
sweep; the AI timer runs one AI tick for every room with `started = true`
and a non-empty agent list. -/
def applyServerOp (s : ServerState) (env : Env) : ServerOp → ServerState × List Event
  | .createRoom ws playerName config rollStream =>
      handleCreateRoom s env ws playerName config rollStream
  | .joinRoom ws roomCode playerName => handleJoinRoom s env ws roomCode playerName
  | .joinRoomLate ws roomCode playerName => handleJoinRoomLate s env ws roomCode playerName
  | .leaveRoom ws => handleLeaveRoom s env ws
  | .updateConfig ws patch => handleUpdateConfig s env ws patch
  | .startGame ws => handleStartGame s env ws
  | .gameConnect ws roomCode playerId => handleGameConnect s env ws roomCode playerId
  | .gameMessage ws data => handleGameMessage s env ws data
  | .gameMessageV2 ws data => handleGameMessageV2 s env ws data
  | .disconnect ws => handleDisconnect s env ws
  | .cleanupTick =>
      ({ s with roomManager := s.roomManager.cleanupInactiveRooms env.now }, [])
  | .aiTick =>
      let results := s.roomManager.rooms.map (fun rc =>
        if rc.2.gameStarted ∧ 0 < rc.2.aiPlayers.length then
          let pr := processAIPlayers rc.2 env
          ((rc.1, pr.1), pr.2)
        else ((rc.1, rc.2), []))
      ({ s with roomManager := { s.roomManager with rooms := results.map Prod.fst } },
       (results.map Prod.snd).flatten)

/-! ### Membership operation sequences on one room -/

/-- One membership operation on a single room: an `addPlayer` call or a
`removePlayer` call. -/
inductive RoomOp where
  | add (ws : WsConn) (name : String)
  | remove (playerId : Nat)
deriving DecidableEq

/-- Accumulated outcome of a membership operation sequence: the room, the
ids returned by the `addPlayer` calls, and the ids passed to
`removePlayer`. -/
structure RunResult where
  room : GameRoom
  returned : List Nat
  removed : List Nat
deriving DecidableEq

/-- Run a membership operation sequence, recording returned and removed
ids. -/
def runRoomOps (now : Nat) : RunResult → List RoomOp → RunResult
  | r, [] => r
  | r, (.add ws name) :: t =>
    let a := r.room.addPlayer ws name now
    runRoomOps now ⟨a.1, r.returned ++ [a.2], r.removed⟩ t
  | r, (.remove pid) :: t =>
    runRoomOps now ⟨r.room.removePlayer pid now, r.returned, r.removed ++ [pid]⟩ t

/-- A removal-closed operation sequence: every `removePlayer` call targets
an id previously returned by an `addPlayer` call of the same sequence. -/
def validOpsFrom (now : Nat) : RunResult → List RoomOp → Bool
  | _, [] => true
  | r, (.add ws name) :: t =>
    let a := r.room.addPlayer ws name now
    validOpsFrom now ⟨a.1, r.returned ++ [a.2], r.removed⟩ t
  | r, (.remove pid) :: t =>
    decide (pid ∈ r.returned) &&
      validOpsFrom now ⟨r.room.removePlayer pid now, r.returned, r.removed ++ [pid]⟩ t

end Tunneler

namespace Tunneler

/-! ### Concrete instances used by the witness theorems -/

/-- A transport environment with a reliable transport, no map generator and
an AI update step that emits no actions. -/
def demoEnv : Env :=
  { now := 0
    sendFail := fun _ => false
    mapGen := fun _ => none
    aiUpdate := fun ai _ => (ai, []) }

/-- An aggressive normal-difficulty agent at the origin. -/
def demoC7AI : AIPlayer := AIPlayer.new 1001 "Tank Hunter" "normal" "aggressive" 0

/-- One human enemy 100px to the right of the agent. -/
def demoC7GS : GameState :=
  { players := [{ id := 1, x := 100, y := 0, health := 9, energy := 900, isAI := false }]
    bases := []
    mapWidth := 1200
    mapHeight := 600 }

/-- A balanced agent standing at (100, 100). -/
def demoC9AI : AIPlayer :=
  { AIPlayer.new 1000 "Bot One" "normal" "balanced" 0 with x := 100, y := 100 }

/-- A lobby room with one connected host player, AI opponents disabled. -/
def demoC1Room : GameRoom :=
  { GameRoom.new "ROOM01" (some 1) none 0 with
      players := [(1, { ws := { id := 1, connected := true }
                        playerData := { name := "Alice" } })]
      playerIdCounter := 1 }

/-- A server holding `demoC1Room` with its host connection registered. -/
def demoC1State : ServerState :=
  { roomManager := { rooms := [("ROOM01", demoC1Room)], playerToRoom := [] }
    connectionToPlayer := [(1, { playerId := 1, roomCode := "ROOM01" })] }

/-- A full room: four players, `maxPlayers = 4`. -/
def demoC6Room : GameRoom :=
  { GameRoom.new "FULL01" (some 1) none 0 with
      players :=
        [(1, { ws := { id := 1, connected := true }, playerData := { name := "A" } }),
         (2, { ws := { id := 2, connected := true }, playerData := { name := "B" } }),
         (3, { ws := { id := 3, connected := true }, playerData := { name := "C" } }),
         (4, { ws := { id := 4, connected := true }, playerData := { name := "D" } })]
      playerIdCounter := 4 }

/-- A server holding the full room. -/
def demoC6State : ServerState :=
  { roomManager := { rooms := [("FULL01", demoC6Room)], playerToRoom := [] }
    connectionToPlayer :=
      [(1, { playerId := 1, roomCode := "FULL01" }),
       (2, { playerId := 2, roomCode := "FULL01" }),
       (3, { playerId := 3, roomCode := "FULL01" }),
       (4, { playerId := 4, roomCode := "FULL01" })] }

/-- A server with no rooms and no registered connections. -/
def demoC10State : ServerState :=
  { roomManager := { rooms := [], playerToRoom := [] }, connectionToPlayer := [] }

/-- A room with two connected players and one whose socket is closed. -/
def demoC3Room : GameRoom :=
  { GameRoom.new "BCAST1" (some 1) none 0 with
      players :=
        [(1, { ws := { id := 1, connected := true }, playerData := { name := "A" } }),
         (2, { ws := { id := 2, connected := false }, playerData := { name := "B" } }),
         (3, { ws := { id := 3, connected := true }, playerData := { name := "C" } })]
      playerIdCounter := 3 }

/-- A zero-player room whose last activity is at time 0. -/
def demoC2Room : GameRoom := GameRoom.new "AAAAAA" none none 0

/-- A directory holding only `demoC2Room`. -/
def demoC2Mgr : RoomManager :=
  { rooms := [("AAAAAA", demoC2Room)], playerToRoom := [] }

/-- The outcome of removing id 1 from a fresh room and then adding a
player: `addPlayer` returns id 1, which the claim would subtract away. -/
def demoC5Run : RunResult :=
  runRoomOps 0 ⟨GameRoom.new "AAAAAA" none none 0, [], []⟩
    [RoomOp.remove 1, RoomOp.add { id := 1, connected := true } "Alice"]

/-- A room stored under the uppercase generated code "ABC234". -/
def demoC8Room : GameRoom := GameRoom.new "ABC234" none none 0

/-- A directory holding only `demoC8Room`. -/
def demoC8Mgr : RoomManager :=
  { rooms := [("ABC234", demoC8Room)], playerToRoom := [] }

end Tunneler

namespace Tunneler

/-! ### Association map lemmas -/

instance stableSortRelTotal {α : Type} (k : α → ℚ) :
    IsTotal (Nat × α) (fun a b => toLex (k a.2, a.1) ≤ toLex (k b.2, b.1)) :=
  ⟨fun _ _ => le_total _ _⟩

instance stableSortRelTrans {α : Type} (k : α → ℚ) :
    IsTrans (Nat × α) (fun a b => toLex (k a.2, a.1) ≤ toLex (k b.2, b.1)) :=
  ⟨fun _ _ _ h1 h2 => le_trans h1 h2⟩

theorem mapGet_cons {α β : Type} [DecidableEq α] (p : α × β) (m : List (α × β)) (k : α) :
    mapGet (p :: m) k = if p.1 = k then some p.2 else mapGet m k := by
  by_cases h : p.1 = k <;> simp [mapGet, List.find?_cons, h]

theorem mapGet_eq_none_iff {α β : Type} [DecidableEq α] (m : List (α × β)) (k : α) :
    mapGet m k = none ↔ ∀ p ∈ m, p.1 ≠ k := by
  induction m with
  | nil => simp [mapGet]
  | cons p t ih =>
    rw [mapGet_cons]
    by_cases h : p.1 = k <;> simp [h, ih]

theorem mapGet_mem {α β : Type} [DecidableEq α] {m : List (α × β)} {k : α} {v : β}
    (h : mapGet m k = some v) : (k, v) ∈ m := by
  induction m with
  | nil => simp [mapGet] at h
  | cons p t ih =>
    obtain ⟨a, b⟩ := p
    rw [mapGet_cons] at h
    dsimp at h
    by_cases hp : a = k
    · rw [if_pos hp] at h
      injection h with h
      subst hp
      subst h
      exact List.mem_cons_self _ _
    · rw [if_neg hp] at h
      exact List.mem_cons_of_mem _ (ih h)

theorem mapGet_append {α β : Type} [DecidableEq α] (m m' : List (α × β)) (k : α) :
    mapGet (m ++ m') k =
      match mapGet m k with
      | some v => some v
      | none => mapGet m' k := by
  induction m with
  | nil => simp [mapGet]
  | cons p t ih =>
    rw [List.cons_append, mapGet_cons, mapGet_cons]
    by_cases hp : p.1 = k
    · simp [hp]
    · simp only [if_neg hp]
      exact ih

theorem mapGet_substList_self {α β : Type} [DecidableEq α] (m : List (α × β)) (k : α) (v : β)
    (h : m.any (fun p => decide (p.1 = k))) :
    mapGet (m.map (fun p => if p.1 = k then (k, v) else p)) k = some v := by
  induction m with
  | nil => simp at h
  | cons p t ih =>
    simp only [List.any_cons, Bool.or_eq_true, decide_eq_true_eq] at h
    by_cases hp : p.1 = k
    · simp [mapGet_cons, hp]
    · have ht : t.any (fun p => decide (p.1 = k)) := by
        rcases h with h | h
        · exact absurd h hp
        · exact h
      rw [List.map_cons, if_neg hp, mapGet_cons, if_neg hp]
      exact ih ht

theorem mapGet_substList_ne {α β : Type} [DecidableEq α] (m : List (α × β)) (k k' : α) (v : β)
    (h : k' ≠ k) :
    mapGet (m.map (fun p => if p.1 = k then (k, v) else p)) k' = mapGet m k' := by
  induction m with
  | nil => rfl
  | cons p t ih =>
    by_cases hp : p.1 = k
    · rw [List.map_cons, if_pos hp, mapGet_cons, mapGet_cons]
      dsimp
      rw [if_neg (fun hk => h hk.symm), if_neg (by rw [hp]; exact fun hk => h hk.symm), ih]
    · rw [List.map_cons, if_neg hp, mapGet_cons, mapGet_cons, ih]

theorem mapGet_mapSet_self {α β : Type} [DecidableEq α] (m : List (α × β)) (k : α) (v : β) :
    mapGet (mapSet m k v) k = some v := by
  unfold mapSet
  by_cases h : m.any (fun p => decide (p.1 = k))
  · rw [if_pos h]
    exact mapGet_substList_self m k v h
  · rw [if_neg h, mapGet_append]
    have hnone : mapGet m k = none := by
      rw [mapGet_eq_none_iff]
      intro p hp
      simp only [List.any_eq_true, decide_eq_true_eq] at h
      push_neg at h
      exact h p hp
    rw [hnone]
    simp [mapGet_cons, mapGet]

theorem mapGet_mapSet_ne {α β : Type} [DecidableEq α] (m : List (α × β)) (k k' : α) (v : β)
    (h : k' ≠ k) : mapGet (mapSet m k v) k' = mapGet m k' := by
  unfold mapSet
  by_cases hc : m.any (fun p => decide (p.1 = k))
  · rw [if_pos hc]
    exact mapGet_substList_ne m k k' v h
  · rw [if_neg hc, mapGet_append]
    cases hg : mapGet m k' with
    | some v' => rfl
    | none =>
      dsimp
      rw [mapGet_cons]
      dsimp
      rw [if_neg (fun hk => h hk.symm)]
      rfl

theorem mapGet_mapDelete_self {α β : Type} [DecidableEq α] (m : List (α × β)) (k : α) :
    mapGet (mapDelete m k) k = none := by
  rw [mapGet_eq_none_iff]
  intro p hp
  simp only [mapDelete, List.mem_filter, decide_eq_true_eq] at hp
  exact hp.2

theorem mapGet_mapDelete_ne {α β : Type} [DecidableEq α] (m : List (α × β)) (k k' : α)
    (h : k' ≠ k) : mapGet (mapDelete m k) k' = mapGet m k' := by
  induction m with
  | nil => rfl
  | cons p t ih =>
    by_cases hp : p.1 = k
    · have he : mapDelete (p :: t) k = mapDelete t k := by
        simp [mapDelete, hp]
      rw [he, ih, mapGet_cons, if_neg]
      rw [hp]
      exact fun hk => h hk.symm
    · have he : mapDelete (p :: t) k = p :: mapDelete t k := by
        simp [mapDelete, hp]
      rw [he, mapGet_cons, mapGet_cons, ih]

end Tunneler

namespace Tunneler

/-! ### Stable sort and nearby-enemy lemmas -/

theorem stableSortBy_perm {α : Type} (k : α → ℚ) (l : List α) :
    (stableSortBy k l).Perm l := by
  unfold stableSortBy
  have h : (l.enum.insertionSort
      (fun a b => toLex (k a.2, a.1) ≤ toLex (k b.2, b.1))).Perm l.enum :=
    List.perm_insertionSort _ _
  have h2 := h.map Prod.snd
  rwa [List.enum_map_snd] at h2

theorem stableSortBy_head_min {α : Type} (k : α → ℚ) (l : List α) (a : α) (rest : List α)
    (h : stableSortBy k l = a :: rest) : ∀ b ∈ l, k a ≤ k b := by
  intro b hb
  have hs : List.Sorted (fun x y : Nat × α => toLex (k x.2, x.1) ≤ toLex (k y.2, y.1))
      (l.enum.insertionSort (fun x y => toLex (k x.2, x.1) ≤ toLex (k y.2, y.1))) :=
    List.sorted_insertionSort _ _
  have hbmem : b ∈ stableSortBy k l := ((stableSortBy_perm k l).mem_iff).mpr hb
  rw [h] at hbmem
  cases hsort : l.enum.insertionSort
      (fun x y : Nat × α => toLex (k x.2, x.1) ≤ toLex (k y.2, y.1)) with
  | nil =>
    exfalso
    have : stableSortBy k l = [] := by
      unfold stableSortBy
      rw [hsort]
      rfl
    rw [h] at this
    exact List.cons_ne_nil _ _ this
  | cons p s =>
    have hmap : stableSortBy k l = p.2 :: s.map Prod.snd := by
      unfold stableSortBy
      rw [hsort]
      rfl
    rw [h] at hmap
    injection hmap with hpa hrest
    rw [hsort] at hs
    rcases List.mem_cons.mp hbmem with rfl | hbr
    · exact le_rfl
    · rw [hrest] at hbr
      obtain ⟨q, hq, hqb⟩ := List.mem_map.mp hbr
      have hpq := List.rel_of_sorted_cons hs q hq
      rcases (Prod.Lex.le_iff (k p.2, p.1) (k q.2, q.1)).mp hpq with hlt | ⟨heq, _⟩
      · rw [hpa, ← hqb]
        exact le_of_lt hlt
      · rw [hpa, ← hqb]
        exact le_of_eq heq

theorem stableSortBy_ne_nil {α : Type} (k : α → ℚ) (l : List α) (h : l ≠ []) :
    stableSortBy k l ≠ [] := by
  intro hc
  have := (stableSortBy_perm k l).length_eq
  rw [hc] at this
  exact h (List.length_eq_zero.mp this.symm)

theorem mem_of_stableSortBy_cons {α : Type} {k : α → ℚ} {l : List α} {a : α} {rest : List α}
    (h : stableSortBy k l = a :: rest) : a ∈ l := by
  have : a ∈ stableSortBy k l := by
    rw [h]
    exact List.mem_cons_self _ _
  exact (stableSortBy_perm k l).mem_iff.mp this

end Tunneler

namespace Tunneler

theorem mem_findNearbyEnemies_iff (self : AIPlayer) (players : List PlayerSnapshot)
    (radius : ℚ) (e : NearbyEnemy) :
    e ∈ self.findNearbyEnemies players radius ↔
      ∃ p ∈ players, p.id ≠ self.id ∧ ¬ p.isAI ∧
        (p.x - self.x) * (p.x - self.x) + (p.y - self.y) * (p.y - self.y) < radius * radius ∧
        e = ⟨p, (p.x - self.x) * (p.x - self.x) + (p.y - self.y) * (p.y - self.y)⟩ := by
  unfold AIPlayer.findNearbyEnemies
  rw [(stableSortBy_perm _ _).mem_iff, List.mem_filterMap]
  constructor
  · rintro ⟨p, hp, hf⟩
    dsimp only at hf
    by_cases h1 : p.id ≠ self.id ∧ ¬ p.isAI
    · rw [if_pos h1] at hf
      by_cases h2 : (p.x - self.x) * (p.x - self.x) + (p.y - self.y) * (p.y - self.y) <
          radius * radius
      · rw [if_pos h2] at hf
        injection hf with hf
        exact ⟨p, hp, h1.1, h1.2, h2, hf.symm⟩
      · rw [if_neg h2] at hf
        exact absurd hf (by simp)
    · rw [if_neg h1] at hf
      exact absurd hf (by simp)
  · rintro ⟨p, hp, h1, h2, h3, rfl⟩
    refine ⟨p, hp, ?_⟩
    dsimp only
    rw [if_pos ⟨h1, h2⟩, if_pos h3]

theorem findNearbyEnemies_head_min (self : AIPlayer) (players : List PlayerSnapshot)
    (radius : ℚ) (e : NearbyEnemy) (rest : List NearbyEnemy)
    (h : self.findNearbyEnemies players radius = e :: rest) :
    ∀ e' ∈ self.findNearbyEnemies players radius, e.distSq ≤ e'.distSq := by
  intro e' he'
  unfold AIPlayer.findNearbyEnemies at h he'
  have hmin := stableSortBy_head_min (fun x => x.distSq) _ e rest h
  exact hmin e' ((stableSortBy_perm _ _).mem_iff.mp he')

theorem selectTarget_spec (self : AIPlayer) (players : List PlayerSnapshot) (radius : ℚ)
    (e : NearbyEnemy) (rest : List NearbyEnemy)
    (h : self.findNearbyEnemies players radius = e :: rest) :
    ∃ t ∈ self.findNearbyEnemies players radius,
      self.selectTarget (self.findNearbyEnemies players radius) = some t.player ∧
      (self.personality ≠ "balanced" →
        ∀ e' ∈ self.findNearbyEnemies players radius, t.distSq ≤ e'.distSq) ∧
      (self.personality = "balanced" →
        ∀ e' ∈ self.findNearbyEnemies players radius, t.player.health ≤ e'.player.health) := by
  have hmin := findNearbyEnemies_head_min self players radius e rest h
  rw [h] at hmin ⊢
  by_cases hb : self.personality = "balanced"
  · cases hs : stableSortBy (fun a => a.player.health) (e :: rest) with
    | nil => exact absurd hs (stableSortBy_ne_nil _ _ (List.cons_ne_nil e rest))
    | cons t2 r2 =>
      have ht2mem : t2 ∈ e :: rest := mem_of_stableSortBy_cons hs
      have ht2min : ∀ b ∈ e :: rest, t2.player.health ≤ b.player.health :=
        stableSortBy_head_min (fun a => a.player.health) (e :: rest) t2 r2 hs
      refine ⟨t2, ht2mem, ?_, fun hne => absurd hb hne, fun _ => ht2min⟩
      unfold AIPlayer.selectTarget
      rw [hb]
      dsimp only
      rw [if_neg (by decide), if_neg (by decide), if_pos rfl, hs]
      rfl
  · refine ⟨e, List.mem_cons_self e rest, ?_, fun _ => hmin, fun hbb => absurd hbb hb⟩
    unfold AIPlayer.selectTarget
    dsimp only
    by_cases hag : self.personality = "aggressive"
    · rw [if_pos hag]
    · rw [if_neg hag]
      by_cases hdf : self.personality = "defensive"
      · rw [if_pos hdf]
      · rw [if_neg hdf, if_neg hb]

end Tunneler

namespace Tunneler

theorem updateKnowledge_health (self : AIPlayer) (p : List PlayerSnapshot)
    (b : List BaseSnapshot) (n : Nat) : (self.updateKnowledge p b n).health = self.health := rfl

theorem updateKnowledge_energy (self : AIPlayer) (p : List PlayerSnapshot)
    (b : List BaseSnapshot) (n : Nat) : (self.updateKnowledge p b n).energy = self.energy := rfl

theorem updateKnowledge_personality (self : AIPlayer) (p : List PlayerSnapshot)
    (b : List BaseSnapshot) (n : Nat) :
    (self.updateKnowledge p b n).personality = self.personality := rfl

theorem updateKnowledge_params (self : AIPlayer) (p : List PlayerSnapshot)
    (b : List BaseSnapshot) (n : Nat) : (self.updateKnowledge p b n).params = self.params := rfl

theorem updateKnowledge_findNearbyEnemies (self : AIPlayer) (p : List PlayerSnapshot)
    (b : List BaseSnapshot) (n : Nat) (ps : List PlayerSnapshot) (r : ℚ) :
    (self.updateKnowledge p b n).findNearbyEnemies ps r = self.findNearbyEnemies ps r := rfl

theorem updateKnowledge_selectTarget (self : AIPlayer) (p : List PlayerSnapshot)
    (b : List BaseSnapshot) (n : Nat) (es : List NearbyEnemy) :
    (self.updateKnowledge p b n).selectTarget es = self.selectTarget es := rfl

/-- C7: `makeStrategicDecision` selects the agent state by exactly this
precedence: low health or low energy → refueling; nearby enemies and health
below 50% → retreating; aggressive personality with nearby enemies →
attacking with the nearest enemy (least distance) as target; defensive
personality → defending; energy below the difficulty energy-management
threshold → refueling; nearby enemies and a successful per-difficulty
aggression roll → attacking with the target chosen by the personality rule
(balanced picks lowest health, the others pick nearest); otherwise →
exploring. -/
theorem C7_strategic_decision_policy (self : AIPlayer) (gs : GameState) (roll : ℚ)
    (now : Nat) :
    (self.health / 10 < 0.3 ∨ self.energy / 1000 < 0.2 →
       (self.makeStrategicDecision gs roll now).state = "refueling") ∧
    (¬ (self.health / 10 < 0.3 ∨ self.energy / 1000 < 0.2) →
     0 < (self.findNearbyEnemies gs.players 150).length ∧ self.health / 10 < 0.5 →
       (self.makeStrategicDecision gs roll now).state = "retreating") ∧
    (¬ (self.health / 10 < 0.3 ∨ self.energy / 1000 < 0.2) →
     ¬ (0 < (self.findNearbyEnemies gs.players 150).length ∧ self.health / 10 < 0.5) →
     self.personality = "aggressive" ∧ 0 < (self.findNearbyEnemies gs.players 150).length →
       (self.makeStrategicDecision gs roll now).state = "attacking" ∧
       ∃ t ∈ self.findNearbyEnemies gs.players 150,
         (self.makeStrategicDecision gs roll now).target = some t.player ∧
         ∀ e' ∈ self.findNearbyEnemies gs.players 150, t.distSq ≤ e'.distSq) ∧
    (¬ (self.health / 10 < 0.3 ∨ self.energy / 1000 < 0.2) →
     ¬ (0 < (self.findNearbyEnemies gs.players 150).length ∧ self.health / 10 < 0.5) →
     ¬ (self.personality = "aggressive" ∧ 0 < (self.findNearbyEnemies gs.players 150).length) →
     self.personality = "defensive" →
       (self.makeStrategicDecision gs roll now).state = "defending") ∧
    (¬ (self.health / 10 < 0.3 ∨ self.energy / 1000 < 0.2) →
     ¬ (0 < (self.findNearbyEnemies gs.players 150).length ∧ self.health / 10 < 0.5) →
     ¬ (self.personality = "aggressive" ∧ 0 < (self.findNearbyEnemies gs.players 150).length) →
     ¬ self.personality = "defensive" →
     self.energy / 1000 < self.params.energyManagement →
       (self.makeStrategicDecision gs roll now).state = "refueling") ∧
    (¬ (self.health / 10 < 0.3 ∨ self.energy / 1000 < 0.2) →
     ¬ (0 < (self.findNearbyEnemies gs.players 150).length ∧ self.health / 10 < 0.5) →
     ¬ (self.personality = "aggressive" ∧ 0 < (self.findNearbyEnemies gs.players 150).length) →
     ¬ self.personality = "defensive" →
     ¬ (self.energy / 1000 < self.params.energyManagement) →
     0 < (self.findNearbyEnemies gs.players 150).length ∧ roll < self.params.aggressionLevel →
       (self.makeStrategicDecision gs roll now).state = "attacking" ∧
       (self.personality = "balanced" →
         ∃ t ∈ self.findNearbyEnemies gs.players 150,
           (self.makeStrategicDecision gs roll now).target = some t.player ∧
           ∀ e' ∈ self.findNearbyEnemies gs.players 150,
             t.player.health ≤ e'.player.health) ∧
       (self.personality ≠ "balanced" →
         ∃ t ∈ self.findNearbyEnemies gs.players 150,
           (self.makeStrategicDecision gs roll now).target = some t.player ∧
           ∀ e' ∈ self.findNearbyEnemies gs.players 150, t.distSq ≤ e'.distSq)) ∧
    (¬ (self.health / 10 < 0.3 ∨ self.energy / 1000 < 0.2) →
     ¬ (0 < (self.findNearbyEnemies gs.players 150).length ∧ self.health / 10 < 0.5) →
     ¬ (self.personality = "aggressive" ∧ 0 < (self.findNearbyEnemies gs.players 150).length) →
     ¬ self.personality = "defensive" →
     ¬ (self.energy / 1000 < self.params.energyManagement) →
     ¬ (0 < (self.findNearbyEnemies gs.players 150).length ∧
        roll < self.params.aggressionLevel) →
       (self.makeStrategicDecision gs roll now).state = "exploring") := by
  unfold AIPlayer.makeStrategicDecision
  simp only [updateKnowledge_health, updateKnowledge_energy, updateKnowledge_personality,
    updateKnowledge_params, updateKnowledge_findNearbyEnemies, updateKnowledge_selectTarget]
  refine ⟨?_, ?_, ?_, ?_, ?_, ?_, ?_⟩
  · intro h1
    rw [if_pos h1]
  · intro h1 h2
    rw [if_neg h1, if_pos h2]
  · intro h1 h2 h3
    rw [if_neg h1, if_neg h2, if_pos h3]
    obtain ⟨e, rest, hER⟩ : ∃ e rest, self.findNearbyEnemies gs.players 150 = e :: rest := by
      cases hc : self.findNearbyEnemies gs.players 150 with
      | nil =>
        rw [hc] at h3
        exact absurd h3.2 (by simp)
      | cons a l => exact ⟨a, l, rfl⟩
    obtain ⟨t, htmem, hsel, hnb, _⟩ := selectTarget_spec self gs.players 150 e rest hER
    refine ⟨rfl, t, htmem, hsel, ?_⟩
    exact hnb (by rw [h3.1]; decide)
  · intro h1 h2 h3 h4
    rw [if_neg h1, if_neg h2, if_neg h3, if_pos h4]
  · intro h1 h2 h3 h4 h5
    rw [if_neg h1, if_neg h2, if_neg h3, if_neg h4, if_pos h5]
  · intro h1 h2 h3 h4 h5 h6
    rw [if_neg h1, if_neg h2, if_neg h3, if_neg h4, if_neg h5, if_pos h6]
    obtain ⟨e, rest, hER⟩ : ∃ e rest, self.findNearbyEnemies gs.players 150 = e :: rest := by
      cases hc : self.findNearbyEnemies gs.players 150 with
      | nil =>
        rw [hc] at h6
        exact absurd h6.1 (by simp)
      | cons a l => exact ⟨a, l, rfl⟩
    obtain ⟨t, htmem, hsel, hnb, hbb⟩ := selectTarget_spec self gs.players 150 e rest hER
    exact ⟨rfl, fun hb => ⟨t, htmem, hsel, hbb hb⟩, fun hb => ⟨t, htmem, hsel, hnb hb⟩⟩
  · intro h1 h2 h3 h4 h5 h6
    rw [if_neg h1, if_neg h2, if_neg h3, if_neg h4, if_neg h5, if_neg h6]

end Tunneler

namespace Tunneler

theorem C7_strategic_decision_policy_witness :
    (demoC7AI.makeStrategicDecision demoC7GS (1/2) 0).state = "attacking" := by
  have hlen : 0 < (demoC7AI.findNearbyEnemies demoC7GS.players 150).length := by
    unfold AIPlayer.findNearbyEnemies
    rw [(stableSortBy_perm _ _).length_eq]
    simp only [demoC7GS, demoC7AI, AIPlayer.new, List.filterMap]
    norm_num
  have h1 : ¬ (demoC7AI.health / 10 < 0.3 ∨ demoC7AI.energy / 1000 < 0.2) := by
    simp only [demoC7AI, AIPlayer.new]
    norm_num
  have h2 : ¬ (0 < (demoC7AI.findNearbyEnemies demoC7GS.players 150).length ∧
      demoC7AI.health / 10 < 0.5) := by
    intro hc
    revert hc
    simp only [demoC7AI, AIPlayer.new]
    norm_num
  have h3 : demoC7AI.personality = "aggressive" ∧
      0 < (demoC7AI.findNearbyEnemies demoC7GS.players 150).length :=
    ⟨rfl, hlen⟩
  exact ((C7_strategic_decision_policy demoC7AI demoC7GS (1/2) 0).2.2.1 h1 h2 h3).1

end Tunneler

namespace Tunneler

/-! ### AI position clamp lemmas -/

theorem clamp_bounds (a b q : ℚ) (hab : a ≤ b) :
    a ≤ max a (min b q) ∧ max a (min b q) ≤ b :=
  ⟨le_max_left _ _, max_le hab (min_le_left _ _)⟩

theorem clamp_step (a b x d : ℚ) (ha : a ≤ x) (hb : x ≤ b) (hd : |d| ≤ 1) :
    |max a (min b (x + d)) - x| ≤ 1 := by
  obtain ⟨hd1, hd2⟩ := abs_le.mp hd
  rw [abs_le]
  constructor
  · have hmin : x - 1 ≤ min b (x + d) := le_min (by linarith) (by linarith)
    have hmax : min b (x + d) ≤ max a (min b (x + d)) := le_max_right _ _
    linarith
  · have hmax : max a (min b (x + d)) ≤ x + 1 :=
      max_le (by linarith) (le_trans (min_le_right _ _) (by linarith))
    linarith

theorem moveDx_abs_le (dir : Nat) :
    |(if dir = 9 ∨ dir = 6 ∨ dir = 3 then (1 : ℚ)
      else if dir = 7 ∨ dir = 4 ∨ dir = 1 then -1 else 0)| ≤ 1 := by
  split_ifs <;> norm_num

theorem applyAIAction_move_x (ai : AIPlayer) (d : Option Nat) :
    ((applyAIAction ai (.move d)).1).x =
      max 10 (min 1190 (ai.x +
        (if jsOrDir d ai.dir = 9 ∨ jsOrDir d ai.dir = 6 ∨ jsOrDir d ai.dir = 3 then (1 : ℚ)
         else if jsOrDir d ai.dir = 7 ∨ jsOrDir d ai.dir = 4 ∨ jsOrDir d ai.dir = 1 then -1
         else 0))) := rfl

theorem applyAIAction_move_y (ai : AIPlayer) (d : Option Nat) :
    ((applyAIAction ai (.move d)).1).y =
      max 10 (min 590 (ai.y +
        (if jsOrDir d ai.dir = 1 ∨ jsOrDir d ai.dir = 2 ∨ jsOrDir d ai.dir = 3 then (1 : ℚ)
         else if jsOrDir d ai.dir = 9 ∨ jsOrDir d ai.dir = 8 ∨ jsOrDir d ai.dir = 7 then -1
         else 0))) := rfl

theorem applyAIAction_pos_bounds (ai : AIPlayer) (d : Option Nat) :
    10 ≤ ((applyAIAction ai (.move d)).1).x ∧ ((applyAIAction ai (.move d)).1).x ≤ 1190 ∧
    10 ≤ ((applyAIAction ai (.move d)).1).y ∧ ((applyAIAction ai (.move d)).1).y ≤ 590 := by
  rw [applyAIAction_move_x, applyAIAction_move_y]
  refine ⟨(clamp_bounds 10 1190 _ (by norm_num)).1, (clamp_bounds 10 1190 _ (by norm_num)).2,
    (clamp_bounds 10 590 _ (by norm_num)).1, (clamp_bounds 10 590 _ (by norm_num)).2⟩

theorem applyAIAction_preserves_bounds (ai : AIPlayer) (a : AIAction)
    (h : 10 ≤ ai.x ∧ ai.x ≤ 1190 ∧ 10 ≤ ai.y ∧ ai.y ≤ 590) :
    10 ≤ ((applyAIAction ai a).1).x ∧ ((applyAIAction ai a).1).x ≤ 1190 ∧
    10 ≤ ((applyAIAction ai a).1).y ∧ ((applyAIAction ai a).1).y ≤ 590 := by
  cases a with
  | move d => exact applyAIAction_pos_bounds ai d
  | fire => exact h
  | dig => exact h

theorem runAIActions_preserves_bounds (acts : List AIAction) (st : AIPlayer × List Frame)
    (h : 10 ≤ st.1.x ∧ st.1.x ≤ 1190 ∧ 10 ≤ st.1.y ∧ st.1.y ≤ 590) :
    10 ≤ (acts.foldl (fun st a =>
        let r := applyAIAction st.1 a
        (r.1, st.2 ++ r.2.toList)) st).1.x ∧
    (acts.foldl (fun st a =>
        let r := applyAIAction st.1 a
        (r.1, st.2 ++ r.2.toList)) st).1.x ≤ 1190 ∧
    10 ≤ (acts.foldl (fun st a =>
        let r := applyAIAction st.1 a
        (r.1, st.2 ++ r.2.toList)) st).1.y ∧
    (acts.foldl (fun st a =>
        let r := applyAIAction st.1 a
        (r.1, st.2 ++ r.2.toList)) st).1.y ≤ 590 := by
  induction acts generalizing st with
  | nil => exact h
  | cons a t ih =>
    exact ih _ (applyAIAction_preserves_bounds st.1 a h)

theorem floor_bounds_of_bounds (q : ℚ) (lo hi : ℤ) (hlo : (lo : ℚ) ≤ q) (hhi : q ≤ (hi : ℚ)) :
    lo ≤ ⌊q⌋ ∧ ⌊q⌋ ≤ hi := by
  constructor
  · exact Int.le_floor.mpr hlo
  · have h := Int.floor_le_floor hhi
    rwa [Int.floor_intCast] at h

theorem applyAIAction_move_frame (ai : AIPlayer) (d : Option Nat) :
    (applyAIAction ai (.move d)).2 = some (Frame.moveFrame
      ((applyAIAction ai (.move d)).1).id ⌊((applyAIAction ai (.move d)).1).x⌋
      ⌊((applyAIAction ai (.move d)).1).y⌋ ((applyAIAction ai (.move d)).1).dir
      ((applyAIAction ai (.move d)).1).energy ((applyAIAction ai (.move d)).1).health
      ((applyAIAction ai (.move d)).1).score ((applyAIAction ai (.move d)).1).name
      ((applyAIAction ai (.move d)).1).lives) := rfl

theorem runAIActions_moveFrame_bounds (acts : List AIAction) (st : AIPlayer × List Frame)
    (hst : ∀ f ∈ st.2, ∀ id x y dir e h sc nm lv,
      f = Frame.moveFrame id x y dir e h sc nm lv →
      (10 : ℤ) ≤ x ∧ x ≤ 1190 ∧ (10 : ℤ) ≤ y ∧ y ≤ 590) :
    ∀ f ∈ (acts.foldl (fun st a =>
        let r := applyAIAction st.1 a
        (r.1, st.2 ++ r.2.toList)) st).2,
      ∀ id x y dir e h sc nm lv,
        f = Frame.moveFrame id x y dir e h sc nm lv →
        (10 : ℤ) ≤ x ∧ x ≤ 1190 ∧ (10 : ℤ) ≤ y ∧ y ≤ 590 := by
  induction acts generalizing st with
  | nil => exact hst
  | cons a t ih =>
    refine ih _ ?_
    intro f hf id x y dir e h sc nm lv hfe
    rw [List.mem_append] at hf
    rcases hf with hf | hf
    · exact hst f hf id x y dir e h sc nm lv hfe
    · cases a with
      | move d =>
        rw [applyAIAction_move_frame st.1 d] at hf
        simp only [Option.toList, List.mem_singleton] at hf
        rw [hfe] at hf
        injection hf with h1 h2 h3 h4 h5 h6 h7 h8 h9
        subst h2
        subst h3
        have hb := applyAIAction_pos_bounds st.1 d
        have hx := floor_bounds_of_bounds ((applyAIAction st.1 (.move d)).1).x 10 1190
          (by exact_mod_cast hb.1) (by exact_mod_cast hb.2.1)
        have hy := floor_bounds_of_bounds ((applyAIAction st.1 (.move d)).1).y 10 590
          (by exact_mod_cast hb.2.2.1) (by exact_mod_cast hb.2.2.2)
        exact ⟨hx.1, hx.2, hy.1, hy.2⟩
      | fire =>
        have hfr : (applyAIAction st.1 .fire).2 = some (Frame.fireFrame st.1.id) := rfl
        rw [hfr] at hf
        simp only [Option.toList, List.mem_singleton] at hf
        rw [hfe] at hf
        simp at hf
      | dig =>
        have hdg : (applyAIAction st.1 .dig).2 = none := rfl
        rw [hdg] at hf
        simp at hf

end Tunneler

namespace Tunneler

theorem moveDy_abs_le (dir : Nat) :
    |(if dir = 1 ∨ dir = 2 ∨ dir = 3 then (1 : ℚ)
      else if dir = 9 ∨ dir = 8 ∨ dir = 7 then -1 else 0)| ≤ 1 := by
  split_ifs <;> norm_num

theorem broadcastToRoom_frame_eq (room : GameRoom) (fail : Nat → Bool) (msg : Frame)
    (ex : Option Nat) (w : Nat) (f : Frame) (ok : Bool)
    (h : Event.sendUTF w f ok ∈ room.broadcastToRoom fail msg ex) : f = msg := by
  unfold GameRoom.broadcastToRoom at h
  rw [List.mem_filterMap] at h
  obtain ⟨p, hp, hf⟩ := h
  by_cases hc : some p.1 ≠ ex ∧ p.2.ws.connected
  · rw [if_pos hc] at hf
    injection hf with hf
    injection hf with h1 h2 h3
    exact h2.symm
  · rw [if_neg hc] at hf
    exact absurd hf (by simp)

/-- C9 (implicit): on an AI tick the position of an agent is clamped after a
move action to the fixed constants x ∈ [10, 1190], y ∈ [10, 590] (the clamp
quantifies over every room, so it does not depend on the actual map
dimensions stored in `room.mapData`); a single move action from an
in-bounds position changes each coordinate by at most 1; in-bounds
positions are preserved by a whole tick (for any update step that, like
`AIPlayer.update` of the source, never writes the position fields); and
every move frame a tick broadcasts carries coordinates inside the bounds,
unconditionally. -/
theorem C9_ai_position_clamped :
    (∀ (ai : AIPlayer) (d : Option Nat),
       10 ≤ ((applyAIAction ai (.move d)).1).x ∧ ((applyAIAction ai (.move d)).1).x ≤ 1190 ∧
       10 ≤ ((applyAIAction ai (.move d)).1).y ∧ ((applyAIAction ai (.move d)).1).y ≤ 590) ∧
    (∀ (ai : AIPlayer) (d : Option Nat),
       10 ≤ ai.x → ai.x ≤ 1190 → 10 ≤ ai.y → ai.y ≤ 590 →
       |((applyAIAction ai (.move d)).1).x - ai.x| ≤ 1 ∧
       |((applyAIAction ai (.move d)).1).y - ai.y| ≤ 1) ∧
    (∀ (room : GameRoom) (env : Env),
       (∀ ai gs, (env.aiUpdate ai gs).1.x = ai.x ∧ (env.aiUpdate ai gs).1.y = ai.y) →
       (∀ ai ∈ room.aiPlayers, 10 ≤ ai.x ∧ ai.x ≤ 1190 ∧ 10 ≤ ai.y ∧ ai.y ≤ 590) →
       ∀ ai' ∈ (processAIPlayers room env).1.aiPlayers,
         10 ≤ ai'.x ∧ ai'.x ≤ 1190 ∧ 10 ≤ ai'.y ∧ ai'.y ≤ 590) ∧
    (∀ (room : GameRoom) (env : Env) (w : Nat) (f : Frame) (ok : Bool),
       Event.sendUTF w f ok ∈ (processAIPlayers room env).2 →
       ∀ id x y dir e h sc nm lv, f = Frame.moveFrame id x y dir e h sc nm lv →
         (10 : ℤ) ≤ x ∧ x ≤ 1190 ∧ (10 : ℤ) ≤ y ∧ y ≤ 590) := by
  refine ⟨fun ai d => applyAIAction_pos_bounds ai d, ?_, ?_, ?_⟩
  · intro ai d hx1 hx2 hy1 hy2
    rw [applyAIAction_move_x, applyAIAction_move_y]
    exact ⟨clamp_step 10 1190 ai.x _ hx1 hx2 (moveDx_abs_le _),
           clamp_step 10 590 ai.y _ hy1 hy2 (moveDy_abs_le _)⟩
  · intro room env hupd hbounds ai' hai'
    unfold processAIPlayers at hai'
    by_cases hg : ¬ room.gameStarted ∨ room.aiPlayers.length = 0
    · rw [if_pos hg] at hai'
      exact hbounds ai' hai'
    · rw [if_neg hg] at hai'
      simp only [List.map_map, List.mem_map] at hai'
      obtain ⟨ai, hai, hret⟩ := hai'
      have hb0 := hbounds ai hai
      have hux := (hupd ai (buildGameState room)).1
      have huy := (hupd ai (buildGameState room)).2
      have hb1 : 10 ≤ (env.aiUpdate ai (buildGameState room)).1.x ∧
          (env.aiUpdate ai (buildGameState room)).1.x ≤ 1190 ∧
          10 ≤ (env.aiUpdate ai (buildGameState room)).1.y ∧
          (env.aiUpdate ai (buildGameState room)).1.y ≤ 590 := by
        rw [hux, huy]
        exact hb0
      rw [← hret]
      exact runAIActions_preserves_bounds _ _ hb1
  · intro room env w f ok hev id x y dir e h sc nm lv hfe
    unfold processAIPlayers at hev
    by_cases hg : ¬ room.gameStarted ∨ room.aiPlayers.length = 0
    · rw [if_pos hg] at hev
      exact absurd hev (by simp)
    · rw [if_neg hg] at hev
      simp only [List.mem_flatMap] at hev
      obtain ⟨f', hf', hevb⟩ := hev
      have hfeq := broadcastToRoom_frame_eq _ _ _ _ _ _ _ hevb
      rw [List.mem_flatten] at hf'
      obtain ⟨l, hl, hfl⟩ := hf'
      simp only [List.map_map, List.mem_map] at hl
      obtain ⟨ai, hai, hleq⟩ := hl
      rw [← hleq] at hfl
      have := runAIActions_moveFrame_bounds
        (env.aiUpdate ai (buildGameState room)).2
        ((env.aiUpdate ai (buildGameState room)).1, [])
        (by intro f0 hf0; simp at hf0)
      refine this f' ?_ id x y dir e h sc nm lv (by rw [← hfeq, hfe])
      exact hfl

end Tunneler

namespace Tunneler

theorem C9_ai_position_clamped_witness :
    |((applyAIAction demoC9AI (.move (some 6))).1).x - demoC9AI.x| ≤ 1 ∧
    |((applyAIAction demoC9AI (.move (some 6))).1).y - demoC9AI.y| ≤ 1 :=
  C9_ai_position_clamped.2.1 demoC9AI (some 6)
    (by norm_num [demoC9AI]) (by norm_num [demoC9AI])
    (by norm_num [demoC9AI]) (by norm_num [demoC9AI])

end Tunneler

namespace Tunneler

/-! ### Directory lookup helper lemmas -/

theorem getRoom_putRoom_eq (s : ServerState) (c : String) (r : GameRoom) :
    (s.putRoom c r).roomManager.getRoom c = some r :=
  mapGet_mapSet_self _ _ _

theorem getRoom_putRoom_ne (s : ServerState) (c : String) (r : GameRoom) (code : String)
    (h : code ≠ c) :
    (s.putRoom c r).roomManager.getRoom code = s.roomManager.getRoom code :=
  mapGet_mapSet_ne _ _ _ _ h

theorem mapDelete_eq_self {α β : Type} [DecidableEq α] (m : List (α × β)) (k : α)
    (h : mapGet m k = none) : mapDelete m k = m := by
  rw [mapGet_eq_none_iff] at h
  unfold mapDelete
  rw [List.filter_eq_self]
  intro p hp
  simpa using h p hp

theorem generateRoomCode_fresh (m : RoomManager) (rolls : List (List (Fin 32)))
    (code : String) (h : m.generateRoomCode rolls = some code) :
    mapGet m.rooms code = none := by
  induction rolls with
  | nil => simp [RoomManager.generateRoomCode] at h
  | cons r t ih =>
    unfold RoomManager.generateRoomCode at h
    by_cases hc : (mapGet m.rooms (generateRoomCodeOnce r)).isSome
    · rw [if_pos hc] at h
      exact ih h
    · rw [if_neg hc] at h
      injection h with h
      rw [← h]
      exact Option.not_isSome_iff_eq_none.mp hc

theorem addPlayer_gameStarted (room : GameRoom) (ws : WsConn) (name : String) (now : Nat) :
    ((room.addPlayer ws name now).1).gameStarted = room.gameStarted := rfl

theorem removePlayer_gameStarted (room : GameRoom) (pid now : Nat) :
    (room.removePlayer pid now).gameStarted = room.gameStarted := rfl

theorem updateConfig_gameStarted (room : GameRoom) (p : RoomConfigPatch) (now : Nat) :
    (room.updateConfig p now).gameStarted = room.gameStarted := rfl

theorem addToTrace_gameStarted (room : GameRoom) (f : Frame) :
    (room.addToTrace f).gameStarted = room.gameStarted := rfl

theorem updatePlayerGameState_gameStarted (room : GameRoom) (pid : Nat) (g : TrackedState) :
    (room.updatePlayerGameState pid g).gameStarted = room.gameStarted := rfl

theorem processAIPlayers_gameStarted (room : GameRoom) (env : Env) :
    ((processAIPlayers room env).1).gameStarted = room.gameStarted := by
  unfold processAIPlayers
  split_ifs <;> rfl

theorem foldl_preserves {α β : Type} (g : GameRoom → α) (l : List β)
    (r : GameRoom) (f : GameRoom → β → GameRoom)
    (hf : ∀ r a, g (f r a) = g r) : g (l.foldl f r) = g r := by
  induction l generalizing r with
  | nil => rfl
  | cons a t ih => rw [List.foldl_cons, ih, hf]

theorem initializeAIPlayers_players (room : GameRoom) (env : Env) :
    ((initializeAIPlayers room env).1).players = room.players := by
  unfold initializeAIPlayers
  dsimp only
  exact foldl_preserves (fun r => r.players) _ room _ (fun r a => rfl)

theorem initializeAIPlayers_gameStarted (room : GameRoom) (env : Env) :
    ((initializeAIPlayers room env).1).gameStarted = room.gameStarted := by
  unfold initializeAIPlayers
  dsimp only
  exact foldl_preserves (fun r => r.gameStarted) _ room _ (fun r a => rfl)

/-! ### Cleanup sweep lemmas -/

theorem cleanupStep_rooms (acc : RoomManager) (c : String) :
    (match mapGet acc.rooms c with
      | some room =>
        ({ rooms := mapDelete acc.rooms c
           playerToRoom :=
             room.players.foldl (fun ptr (p : Nat × PlayerObj) => mapDelete ptr p.1)
               acc.playerToRoom } : RoomManager)
      | none => acc).rooms = mapDelete acc.rooms c := by
  cases h : mapGet acc.rooms c with
  | some room => rfl
  | none => exact (mapDelete_eq_self _ _ h).symm

theorem cleanup_fold_rooms (codes : List String) (acc : RoomManager) :
    ((codes.foldl (fun acc roomCode =>
        match mapGet acc.rooms roomCode with
        | some room =>
          { rooms := mapDelete acc.rooms roomCode
            playerToRoom :=
              room.players.foldl (fun ptr (p : Nat × PlayerObj) => mapDelete ptr p.1)
                acc.playerToRoom }
        | none => acc) acc).rooms) =
      codes.foldl (fun r c => mapDelete r c) acc.rooms := by
  induction codes generalizing acc with
  | nil => rfl
  | cons c t ih =>
    rw [List.foldl_cons, List.foldl_cons, ih]
    congr 1
    exact cleanupStep_rooms acc c

theorem foldl_mapDelete_get (codes : List String) (rooms : List (String × GameRoom))
    (k : String) :
    mapGet (codes.foldl (fun r c => mapDelete r c) rooms) k =
      if k ∈ codes then none else mapGet rooms k := by
  induction codes generalizing rooms with
  | nil => simp
  | cons c t ih =>
    rw [List.foldl_cons, ih]
    by_cases hk : k = c
    · subst hk
      simp [mapGet_mapDelete_self]
    · rw [mapGet_mapDelete_ne _ _ _ hk]
      by_cases ht : k ∈ t <;> simp [ht, hk]

theorem cleanup_getRoom (m : RoomManager) (now : Nat) (code : String) :
    (m.cleanupInactiveRooms now).getRoom code =
      if code ∈ (m.rooms.filter (fun rc => ! rc.2.isActive now)).map Prod.fst then none
      else m.getRoom code := by
  unfold RoomManager.cleanupInactiveRooms RoomManager.getRoom
  dsimp only
  rw [cleanup_fold_rooms, foldl_mapDelete_get]

end Tunneler

namespace Tunneler

/-! ### The started flag never reverts -/

theorem state_unchanged_started {s : ServerState} {code : String} {room room' : GameRoom}
    (h : s.roomManager.getRoom code = some room) (hst : room.gameStarted = true)
    (h' : s.roomManager.getRoom code = some room') : room'.gameStarted = true := by
  rw [h] at h'
  injection h' with h'
  rw [← h']
  exact hst

theorem putRoom_lookup (s1 : ServerState) (c : String) (r : GameRoom) (code : String) :
    (s1.putRoom c r).roomManager.getRoom code =
      if code = c then some r else s1.roomManager.getRoom code := by
  by_cases h : code = c
  · subst h
    rw [if_pos rfl]
    exact getRoom_putRoom_eq _ _ _
  · rw [if_neg h]
    exact getRoom_putRoom_ne _ _ _ _ h

theorem handleJoinRoom_preserves_started (s : ServerState) (env : Env) (ws : WsConn)
    (rc name code : String) (room room' : GameRoom)
    (h : s.roomManager.getRoom code = some room) (hst : room.gameStarted = true)
    (h' : (handleJoinRoom s env ws rc name).1.roomManager.getRoom code = some room') :
    room'.gameStarted = true := by
  unfold handleJoinRoom at h'
  cases hlr : s.roomManager.getRoom rc with
  | none =>
    rw [hlr] at h'
    exact state_unchanged_started h hst h'
  | some room0 =>
    rw [hlr] at h'
    dsimp only at h'
    by_cases hfull : room0.config.maxPlayers ≤ room0.players.length
    · rw [if_pos hfull] at h'
      exact state_unchanged_started h hst h'
    · rw [if_neg hfull] at h'
      by_cases hstarted : room0.gameStarted
      · rw [if_pos hstarted] at h'
        exact state_unchanged_started h hst h'
      · rw [if_neg hstarted] at h'
        dsimp only [GameRoom.addPlayer] at h'
        rw [putRoom_lookup] at h'
        by_cases hc : code = rc
        · rw [if_pos hc] at h'
          rw [hc, hlr] at h
          injection h with h
          rw [← h] at hst
          exact absurd hst hstarted
        · rw [if_neg hc] at h'
          exact state_unchanged_started h hst h'

end Tunneler

namespace Tunneler

theorem handleCreateRoom_preserves_started (s : ServerState) (env : Env) (ws : WsConn)
    (name : String) (config : Option RoomConfig) (rolls : List (List (Fin 32)))
    (code : String) (room room' : GameRoom)
    (h : s.roomManager.getRoom code = some room) (hst : room.gameStarted = true)
    (h' : (handleCreateRoom s env ws name config rolls).1.roomManager.getRoom code =
      some room') :
    room'.gameStarted = true := by
  unfold handleCreateRoom RoomManager.createRoom at h'
  cases hgen : s.roomManager.generateRoomCode rolls with
  | none =>
    rw [hgen] at h'
    exact state_unchanged_started h hst h'
  | some code0 =>
    rw [hgen] at h'
    have hfresh := generateRoomCode_fresh s.roomManager rolls code0 hgen
    dsimp only [GameRoom.addPlayer] at h'
    rw [putRoom_lookup] at h'
    by_cases hc : code = code0
    · rw [hc] at h
      unfold RoomManager.getRoom at h
      rw [h] at hfresh
      exact absurd hfresh (by simp)
    · rw [if_neg hc] at h'
      have h'' : mapGet (mapSet s.roomManager.rooms code0
          (GameRoom.new code0 none config env.now)) code = some room' := h'
      rw [mapGet_mapSet_ne _ _ _ _ hc] at h''
      exact state_unchanged_started h hst h''

theorem handleJoinRoomLate_preserves_started (s : ServerState) (env : Env) (ws : WsConn)
    (rc name code : String) (room room' : GameRoom)
    (h : s.roomManager.getRoom code = some room) (hst : room.gameStarted = true)
    (h' : (handleJoinRoomLate s env ws rc name).1.roomManager.getRoom code = some room') :
    room'.gameStarted = true := by
  unfold handleJoinRoomLate at h'
  cases hlr : s.roomManager.getRoom rc with
  | none =>
    rw [hlr] at h'
    exact state_unchanged_started h hst h'
  | some room0 =>
    rw [hlr] at h'
    dsimp only at h'
    by_cases hfull : room0.config.maxPlayers ≤ room0.players.length
    · rw [if_pos hfull] at h'
      exact state_unchanged_started h hst h'
    · rw [if_neg hfull] at h'
      dsimp only [GameRoom.addPlayer] at h'
      by_cases hstarted : room0.gameStarted
      · rw [if_pos hstarted] at h'
        rw [putRoom_lookup] at h'
        by_cases hc : code = rc
        · rw [if_pos hc] at h'
          injection h' with h'
          rw [← h']
          exact hstarted
        · rw [if_neg hc] at h'
          exact state_unchanged_started h hst h'
      · rw [if_neg hstarted] at h'
        rw [putRoom_lookup] at h'
        by_cases hc : code = rc
        · rw [if_pos hc] at h'
          rw [hc, hlr] at h
          injection h with h
          rw [← h] at hst
          exact absurd hst hstarted
        · rw [if_neg hc] at h'
          exact state_unchanged_started h hst h'

theorem handleLeaveRoom_preserves_started (s : ServerState) (env : Env) (ws : WsConn)
    (code : String) (room room' : GameRoom)
    (h : s.roomManager.getRoom code = some room) (hst : room.gameStarted = true)
    (h' : (handleLeaveRoom s env ws).1.roomManager.getRoom code = some room') :
    room'.gameStarted = true := by
  unfold handleLeaveRoom at h'
  cases hpi : mapGet s.connectionToPlayer ws.id with
  | none =>
    rw [hpi] at h'
    exact state_unchanged_started h hst h'
  | some pi =>
    rw [hpi] at h'
    dsimp only at h'
    cases hlr : s.roomManager.getRoom pi.roomCode with
    | none =>
      rw [hlr] at h'
      exact state_unchanged_started h hst h'
    | some room0 =>
      rw [hlr] at h'
      dsimp only at h'
      rw [putRoom_lookup] at h'
      by_cases hc : code = pi.roomCode
      · rw [if_pos hc] at h'
        injection h' with h'
        rw [← h']
        rw [hc, hlr] at h
        injection h with h
        rw [removePlayer_gameStarted, h]
        exact hst
      · rw [if_neg hc] at h'
        exact state_unchanged_started h hst h'

theorem handleUpdateConfig_preserves_started (s : ServerState) (env : Env) (ws : WsConn)
    (patch : RoomConfigPatch) (code : String) (room room' : GameRoom)
    (h : s.roomManager.getRoom code = some room) (hst : room.gameStarted = true)
    (h' : (handleUpdateConfig s env ws patch).1.roomManager.getRoom code = some room') :
    room'.gameStarted = true := by
  unfold handleUpdateConfig at h'
  cases hpi : mapGet s.connectionToPlayer ws.id with
  | none =>
    rw [hpi] at h'
    exact state_unchanged_started h hst h'
  | some pi =>
    rw [hpi] at h'
    dsimp only at h'
    cases hlr : s.roomManager.getRoom pi.roomCode with
    | none =>
      rw [hlr] at h'
      exact state_unchanged_started h hst h'
    | some room0 =>
      rw [hlr] at h'
      dsimp only at h'
      by_cases hhost : ¬ room0.isHost pi.playerId
      · rw [if_pos hhost] at h'
        exact state_unchanged_started h hst h'
      · rw [if_neg hhost] at h'
        rw [putRoom_lookup] at h'
        by_cases hc : code = pi.roomCode
        · rw [if_pos hc] at h'
          injection h' with h'
          rw [← h']
          rw [hc, hlr] at h
          injection h with h
          rw [updateConfig_gameStarted, h]
          exact hst
        · rw [if_neg hc] at h'
          exact state_unchanged_started h hst h'

theorem handleStartGame_preserves_started (s : ServerState) (env : Env) (ws : WsConn)
    (code : String) (room room' : GameRoom)
    (h : s.roomManager.getRoom code = some room) (hst : room.gameStarted = true)
    (h' : (handleStartGame s env ws).1.roomManager.getRoom code = some room') :
    room'.gameStarted = true := by
  unfold handleStartGame at h'
  cases hpi : mapGet s.connectionToPlayer ws.id with
  | none =>
    rw [hpi] at h'
    exact state_unchanged_started h hst h'
  | some pi =>
    rw [hpi] at h'
    dsimp only at h'
    cases hlr : s.roomManager.getRoom pi.roomCode with
    | none =>
      rw [hlr] at h'
      exact state_unchanged_started h hst h'
    | some room0 =>
      rw [hlr] at h'
      dsimp only at h'
      by_cases hhost : ¬ room0.isHost pi.playerId
      · rw [if_pos hhost] at h'
        exact state_unchanged_started h hst h'
      · rw [if_neg hhost] at h'
        by_cases hcs : ¬ room0.canStart
        · rw [if_pos hcs] at h'
          exact state_unchanged_started h hst h'
        · rw [if_neg hcs] at h'
          dsimp only at h'
          rw [putRoom_lookup] at h'
          by_cases hc : code = pi.roomCode
          · rw [if_pos hc] at h'
            injection h' with h'
            rw [← h']
          · rw [if_neg hc] at h'
            exact state_unchanged_started h hst h'

theorem handleGameConnect_preserves_started (s : ServerState) (env : Env) (ws : WsConn)
    (rc : String) (playerId : Nat) (code : String) (room room' : GameRoom)
    (h : s.roomManager.getRoom code = some room) (hst : room.gameStarted = true)
    (h' : (handleGameConnect s env ws rc playerId).1.roomManager.getRoom code = some room') :
    room'.gameStarted = true := by
  unfold handleGameConnect at h'
  cases hlr : s.roomManager.getRoom rc with
  | none =>
    rw [hlr] at h'
    exact state_unchanged_started h hst h'
  | some room0 =>
    rw [hlr] at h'
    dsimp only at h'
    by_cases hstarted : ¬ room0.gameStarted
    · rw [if_pos hstarted] at h'
      exact state_unchanged_started h hst h'
    · rw [if_neg hstarted] at h'
      cases hpl : mapGet room0.players playerId with
      | none =>
        rw [hpl] at h'
        exact state_unchanged_started h hst h'
      | some pobj =>
        rw [hpl] at h'
        dsimp only at h'
        rw [putRoom_lookup] at h'
        by_cases hc : code = rc
        · rw [if_pos hc] at h'
          injection h' with h'
          rw [← h']
          rw [hc, hlr] at h
          injection h with h
          rw [← h] at hst
          exact hst
        · rw [if_neg hc] at h'
          exact state_unchanged_started h hst h'

theorem handleGameMessage_preserves_started (s : ServerState) (env : Env) (ws : WsConn)
    (data : String) (code : String) (room room' : GameRoom)
    (h : s.roomManager.getRoom code = some room) (hst : room.gameStarted = true)
    (h' : (handleGameMessage s env ws data).1.roomManager.getRoom code = some room') :
    room'.gameStarted = true := by
  unfold handleGameMessage at h'
  cases hpi : mapGet s.connectionToPlayer ws.id with
  | none =>
    rw [hpi] at h'
    exact state_unchanged_started h hst h'
  | some pi =>
    rw [hpi] at h'
    dsimp only at h'
    cases hlr : s.roomManager.getRoom pi.roomCode with
    | none =>
      rw [hlr] at h'
      exact state_unchanged_started h hst h'
    | some room0 =>
      rw [hlr] at h'
      dsimp only at h'
      rw [putRoom_lookup] at h'
      by_cases hc : code = pi.roomCode
      · rw [if_pos hc] at h'
        injection h' with h'
        rw [← h']
        rw [hc, hlr] at h
        injection h with h
        by_cases hai : 0 < (room0.addToTrace (.raw data)).aiPlayers.length
        · rw [if_pos hai, processAIPlayers_gameStarted, addToTrace_gameStarted, h]
          exact hst
        · rw [if_neg hai]
          rw [show ((room0.addToTrace (.raw data), ([] : List Event)).1).gameStarted =
            room0.gameStarted from rfl, h]
          exact hst
      · rw [if_neg hc] at h'
        exact state_unchanged_started h hst h'

theorem handleGameMessageV2_preserves_started (s : ServerState) (env : Env) (ws : WsConn)
    (data : String) (code : String) (room room' : GameRoom)
    (h : s.roomManager.getRoom code = some room) (hst : room.gameStarted = true)
    (h' : (handleGameMessageV2 s env ws data).1.roomManager.getRoom code = some room') :
    room'.gameStarted = true := by
  unfold handleGameMessageV2 at h'
  cases hpi : mapGet s.connectionToPlayer ws.id with
  | none =>
    rw [hpi] at h'
    exact state_unchanged_started h hst h'
  | some pi =>
    rw [hpi] at h'
    dsimp only at h'
    cases hlr : s.roomManager.getRoom pi.roomCode with
    | none =>
      rw [hlr] at h'
      exact state_unchanged_started h hst h'
    | some room0 =>
      rw [hlr] at h'
      dsimp only at h'
      rw [putRoom_lookup] at h'
      by_cases hc : code = pi.roomCode
      · rw [if_pos hc] at h'
        injection h' with h'
        rw [← h']
        rw [hc, hlr] at h
        injection h with h
        cases hpm : parseMoveTracked data with
        | some pg =>
          dsimp only
          by_cases hai : 0 < ((room0.updatePlayerGameState pg.1 pg.2).addToTrace
              (.raw data)).aiPlayers.length
          · rw [if_pos hai, processAIPlayers_gameStarted, addToTrace_gameStarted,
              updatePlayerGameState_gameStarted, h]
            exact hst
          · rw [if_neg hai]
            show (((room0.updatePlayerGameState pg.1 pg.2).addToTrace
              (Frame.raw data))).gameStarted = true
            rw [addToTrace_gameStarted, updatePlayerGameState_gameStarted, h]
            exact hst
        | none =>
          dsimp only
          by_cases hai : 0 < (room0.addToTrace (.raw data)).aiPlayers.length
          · rw [if_pos hai, processAIPlayers_gameStarted, addToTrace_gameStarted, h]
            exact hst
          · rw [if_neg hai]
            show ((room0.addToTrace (Frame.raw data))).gameStarted = true
            rw [addToTrace_gameStarted, h]
            exact hst
      · rw [if_neg hc] at h'
        exact state_unchanged_started h hst h'

theorem handleDisconnect_preserves_started (s : ServerState) (env : Env) (ws : WsConn)
    (code : String) (room room' : GameRoom)
    (h : s.roomManager.getRoom code = some room) (hst : room.gameStarted = true)
    (h' : (handleDisconnect s env ws).1.roomManager.getRoom code = some room') :
    room'.gameStarted = true := by
  unfold handleDisconnect at h'
  cases hpi : mapGet s.connectionToPlayer ws.id with
  | none =>
    rw [hpi] at h'
    exact state_unchanged_started h hst h'
  | some pi =>
    rw [hpi] at h'
    dsimp only at h'
    cases hlr : s.roomManager.getRoom pi.roomCode with
    | none =>
      rw [hlr] at h'
      exact state_unchanged_started h hst h'
    | some room0 =>
      rw [hlr] at h'
      dsimp only at h'
      by_cases hstarted : room0.gameStarted
      · rw [if_pos hstarted] at h'
        exact state_unchanged_started h hst h'
      · rw [if_neg hstarted] at h'
        rw [putRoom_lookup] at h'
        by_cases hc : code = pi.roomCode
        · rw [if_pos hc] at h'
          rw [hc, hlr] at h
          injection h with h
          rw [← h] at hst
          exact absurd hst hstarted
        · rw [if_neg hc] at h'
          exact state_unchanged_started h hst h'

end Tunneler

namespace Tunneler

theorem mapGet_map_keyed {β γ : Type} (m : List (String × β)) (f : String × β → String × γ)
    (hf : ∀ p, (f p).1 = p.1) (k : String) :
    mapGet (m.map f) k =
      (m.find? (fun p => decide (p.1 = k))).map (fun p => (f p).2) := by
  induction m with
  | nil => rfl
  | cons p t ih =>
    rw [List.map_cons, mapGet_cons, List.find?_cons]
    by_cases hp : p.1 = k
    · rw [if_pos (by rw [hf p]; exact hp)]
      simp [hp]
    · rw [if_neg (by rw [hf p]; exact hp)]
      rw [ih]
      simp [hp]

theorem startedMonotone (s : ServerState) (env : Env) (op : ServerOp) (code : String)
    (room room' : GameRoom)
    (h : s.roomManager.getRoom code = some room) (hst : room.gameStarted = true)
    (h' : (applyServerOp s env op).1.roomManager.getRoom code = some room') :
    room'.gameStarted = true := by
  cases op with
  | createRoom ws n c r =>
    exact handleCreateRoom_preserves_started s env ws n c r code room room' h hst h'
  | joinRoom ws rc n =>
    exact handleJoinRoom_preserves_started s env ws rc n code room room' h hst h'
  | joinRoomLate ws rc n =>
    exact handleJoinRoomLate_preserves_started s env ws rc n code room room' h hst h'
  | leaveRoom ws =>
    exact handleLeaveRoom_preserves_started s env ws code room room' h hst h'
  | updateConfig ws patch =>
    exact handleUpdateConfig_preserves_started s env ws patch code room room' h hst h'
  | startGame ws =>
    exact handleStartGame_preserves_started s env ws code room room' h hst h'
  | gameConnect ws rc pid =>
    exact handleGameConnect_preserves_started s env ws rc pid code room room' h hst h'
  | gameMessage ws data =>
    exact handleGameMessage_preserves_started s env ws data code room room' h hst h'
  | gameMessageV2 ws data =>
    exact handleGameMessageV2_preserves_started s env ws data code room room' h hst h'
  | disconnect ws =>
    exact handleDisconnect_preserves_started s env ws code room room' h hst h'
  | cleanupTick =>
    have h'' : (s.roomManager.cleanupInactiveRooms env.now).getRoom code = some room' := h'
    rw [cleanup_getRoom] at h''
    by_cases hd : code ∈ (s.roomManager.rooms.filter
        (fun rc => ! rc.2.isActive env.now)).map Prod.fst
    · rw [if_pos hd] at h''
      exact absurd h'' (by simp)
    · rw [if_neg hd] at h''
      exact state_unchanged_started h hst h''
  | aiTick =>
    have h'' : mapGet ((s.roomManager.rooms.map (fun rc =>
        if rc.2.gameStarted ∧ 0 < rc.2.aiPlayers.length then
          ((rc.1, (processAIPlayers rc.2 env).1), (processAIPlayers rc.2 env).2)
        else ((rc.1, rc.2), ([] : List Event)))).map Prod.fst) code = some room' := h'
    rw [List.map_map] at h''
    rw [mapGet_map_keyed _ _ (by
      intro p
      dsimp only [Function.comp]
      split_ifs <;> rfl)] at h''
    have hraw : (s.roomManager.rooms.find? (fun p => decide (p.1 = code))).map Prod.snd =
        some room := h
    cases hfind : s.roomManager.rooms.find? (fun p => decide (p.1 = code)) with
    | none =>
      rw [hfind] at hraw
      exact absurd hraw (by simp)
    | some p0 =>
      rw [hfind] at hraw h''
      injection hraw with hraw
      dsimp only [Function.comp] at h''
      injection h'' with h''
      dsimp only at h''
      by_cases hcond : p0.2.gameStarted ∧ 0 < p0.2.aiPlayers.length
      · rw [if_pos hcond] at h''
        rw [← h'']
        dsimp only
        rw [processAIPlayers_gameStarted, hraw]
        exact hst
      · rw [if_neg hcond] at h''
        rw [← h'']
        dsimp only
        rw [hraw]
        exact hst

end Tunneler

namespace Tunneler

theorem initializeAIPlayers_events_no_setStarted (room : GameRoom) (env : Env) :
    ∀ e ∈ (initializeAIPlayers room env).2, ∀ c, e ≠ Event.setStarted c := by
  intro e he c
  unfold initializeAIPlayers at he
  dsimp only at he
  rw [List.mem_flatMap] at he
  obtain ⟨ai, hai, he⟩ := he
  rw [List.mem_flatMap] at he
  obtain ⟨p, hp, he⟩ := he
  by_cases hcon : p.2.ws.connected
  · rw [if_pos hcon] at he
    rw [List.mem_map] at he
    obtain ⟨f, hf, rfl⟩ := he
    simp
  · rw [if_neg hcon] at he
    exact absurd he (by simp)

/-- C1: in the start-game handler, when the requester is the host of a
start-eligible room, a `GAME_STARTING` send is attempted for every player in
the player map, the `gameStarted = true` assignment is the single final
effect (every send attempt precedes it), the room ends with the flag set,
and no server operation ever takes the flag of any room from true back to
false. -/
theorem C1_start_before_flag (s : ServerState) (env : Env) (ws : WsConn)
    (pi : PlayerInfo) (room : GameRoom)
    (hpi : mapGet s.connectionToPlayer ws.id = some pi)
    (hroom : s.roomManager.getRoom pi.roomCode = some room)
    (hhost : room.isHost pi.playerId = true)
    (hcan : room.canStart = true) :
    (∀ p ∈ room.players,
       Event.sendUTF p.2.ws.id (Frame.gameStarting room.roomCode none)
         (! env.sendFail p.2.ws.id) ∈ (handleStartGame s env ws).2) ∧
    (∃ pre, (handleStartGame s env ws).2 = pre ++ [Event.setStarted room.roomCode] ∧
       (∀ e ∈ pre, ∀ c, e ≠ Event.setStarted c) ∧
       ∀ p ∈ room.players,
         Event.sendUTF p.2.ws.id (Frame.gameStarting room.roomCode none)
           (! env.sendFail p.2.ws.id) ∈ pre) ∧
    (((handleStartGame s env ws).1.roomManager.getRoom pi.roomCode).map
        GameRoom.gameStarted = some true) ∧
    (∀ (s' : ServerState) (env' : Env) (op : ServerOp) (code : String) (r r' : GameRoom),
       s'.roomManager.getRoom code = some r → r.gameStarted = true →
       (applyServerOp s' env' op).1.roomManager.getRoom code = some r' →
       r'.gameStarted = true) := by
  have hmain : (handleStartGame s env ws).2 =
      ((if room.config.aiOpponents.enabled ∧ 0 < room.config.aiOpponents.count then
          initializeAIPlayers room env else (room, [])).2 ++
        ((if room.config.aiOpponents.enabled ∧ 0 < room.config.aiOpponents.count then
          initializeAIPlayers room env else (room, [])).1.players.map (fun p =>
            Event.sendUTF p.2.ws.id (Frame.gameStarting room.roomCode none)
              (! env.sendFail p.2.ws.id)))) ++
        [Event.setStarted room.roomCode] := by
    unfold handleStartGame
    rw [hpi]
    dsimp only
    rw [hroom]
    dsimp only
    rw [if_neg (fun hn => hn hhost), if_neg (fun hn => hn hcan)]
  have hplayers : (if room.config.aiOpponents.enabled ∧ 0 < room.config.aiOpponents.count then
      initializeAIPlayers room env else (room, [])).1.players = room.players := by
    by_cases hen : room.config.aiOpponents.enabled ∧ 0 < room.config.aiOpponents.count
    · rw [if_pos hen]
      exact initializeAIPlayers_players room env
    · rw [if_neg hen]
  have hnostart : ∀ e ∈ (if room.config.aiOpponents.enabled ∧
      0 < room.config.aiOpponents.count then
      initializeAIPlayers room env else (room, [])).2, ∀ c, e ≠ Event.setStarted c := by
    by_cases hen : room.config.aiOpponents.enabled ∧ 0 < room.config.aiOpponents.count
    · rw [if_pos hen]
      exact initializeAIPlayers_events_no_setStarted room env
    · rw [if_neg hen]
      intro e he
      exact absurd he (by simp)
  have hsendmem : ∀ p ∈ room.players,
      Event.sendUTF p.2.ws.id (Frame.gameStarting room.roomCode none)
        (! env.sendFail p.2.ws.id) ∈
      ((if room.config.aiOpponents.enabled ∧ 0 < room.config.aiOpponents.count then
          initializeAIPlayers room env else (room, [])).2 ++
        ((if room.config.aiOpponents.enabled ∧ 0 < room.config.aiOpponents.count then
          initializeAIPlayers room env else (room, [])).1.players.map (fun p =>
            Event.sendUTF p.2.ws.id (Frame.gameStarting room.roomCode none)
              (! env.sendFail p.2.ws.id)))) := by
    intro p hp
    refine List.mem_append_right _ ?_
    rw [hplayers]
    exact List.mem_map_of_mem _ hp
  refine ⟨?_, ?_, ?_, ?_⟩
  · intro p hp
    rw [hmain]
    exact List.mem_append_left _ (hsendmem p hp)
  · refine ⟨_, hmain, ?_, hsendmem⟩
    intro e he c
    rw [List.mem_append] at he
    rcases he with he | he
    · exact hnostart e he c
    · rw [List.mem_map] at he
      obtain ⟨p, hp, rfl⟩ := he
      simp
  · have hstate : (handleStartGame s env ws).1 =
        s.putRoom pi.roomCode
          { (if room.config.aiOpponents.enabled ∧ 0 < room.config.aiOpponents.count then
              initializeAIPlayers room env else (room, [])).1 with gameStarted := true } := by
      unfold handleStartGame
      rw [hpi]
      dsimp only
      rw [hroom]
      dsimp only
      rw [if_neg (fun hn => hn hhost), if_neg (fun hn => hn hcan)]
    rw [hstate, getRoom_putRoom_eq]
    rfl
  · exact fun s' env' op code r r' h1 h2 h3 => startedMonotone s' env' op code r r' h1 h2 h3

end Tunneler

namespace Tunneler

theorem C1_start_before_flag_witness :
    ((handleStartGame demoC1State demoEnv { id := 1, connected := true }).1.roomManager.getRoom
        "ROOM01").map GameRoom.gameStarted = some true :=
  (C1_start_before_flag demoC1State demoEnv { id := 1, connected := true }
    { playerId := 1, roomCode := "ROOM01" } demoC1Room rfl rfl (by decide) (by decide)).2.2.1

end Tunneler

namespace Tunneler

/-- C6: a JOIN_ROOM request for a room whose player-map size is at least its
configured maxPlayers is answered with the `ERROR` frame "Room is full" on
the requesting connection, and the whole server state is unchanged (so the
player map, id counter, trace and configuration of the room are untouched);
this holds for both the v1 and the late-join v2 handler, whose capacity
check precedes every mutation. -/
theorem C6_join_full_rejected (s : ServerState) (env : Env) (ws : WsConn)
    (roomCode playerName : String) (room : GameRoom)
    (hr : s.roomManager.getRoom roomCode = some room)
    (hfull : room.config.maxPlayers ≤ room.players.length)
    (hconn : ws.connected = true) :
    handleJoinRoom s env ws roomCode playerName =
      (s, [Event.sendUTF ws.id (Frame.errorFrame "Room is full") (! env.sendFail ws.id)]) ∧
    handleJoinRoomLate s env ws roomCode playerName =
      (s, [Event.sendUTF ws.id (Frame.errorFrame "Room is full") (! env.sendFail ws.id)]) := by
  constructor
  · unfold handleJoinRoom
    rw [hr]
    dsimp only
    rw [if_pos hfull]
    unfold sendError sendJSON
    rw [if_pos hconn]
  · unfold handleJoinRoomLate
    rw [hr]
    dsimp only
    rw [if_pos hfull]
    unfold sendError sendJSON
    rw [if_pos hconn]

theorem C6_join_full_rejected_witness :
    demoC6Room.players.length = 4 ∧ demoC6Room.config.maxPlayers = 4 ∧
    handleJoinRoom demoC6State demoEnv { id := 9, connected := true } "FULL01" "Eve" =
      (demoC6State, [Event.sendUTF 9 (Frame.errorFrame "Room is full") true]) :=
  ⟨by decide, by decide,
   (C6_join_full_rejected demoC6State demoEnv { id := 9, connected := true } "FULL01" "Eve"
     demoC6Room rfl (by decide) rfl).1⟩

/-- C10 (implicit): a game-protocol frame from a connection with no
registry entry, or whose recorded room code no longer resolves, is dropped
with no observable effect: the server state is unchanged (no trace append,
no tracked-state update) and no event is emitted (no broadcast, no AI tick,
no error response); this holds for both game-message handler variants. -/
theorem C10_unroutable_game_frame_dropped :
    (∀ (s : ServerState) (env : Env) (ws : WsConn) (data : String),
       mapGet s.connectionToPlayer ws.id = none →
       handleGameMessage s env ws data = (s, []) ∧
       handleGameMessageV2 s env ws data = (s, [])) ∧
    (∀ (s : ServerState) (env : Env) (ws : WsConn) (data : String) (pi : PlayerInfo),
       mapGet s.connectionToPlayer ws.id = some pi →
       s.roomManager.getRoom pi.roomCode = none →
       handleGameMessage s env ws data = (s, []) ∧
       handleGameMessageV2 s env ws data = (s, [])) := by
  constructor
  · intro s env ws data h
    constructor
    · unfold handleGameMessage
      rw [h]
    · unfold handleGameMessageV2
      rw [h]
  · intro s env ws data pi hpi hroom
    constructor
    · unfold handleGameMessage
      rw [hpi]
      dsimp only
      rw [hroom]
    · unfold handleGameMessageV2
      rw [hpi]
      dsimp only
      rw [hroom]

theorem C10_unroutable_game_frame_dropped_witness :
    handleGameMessage demoC10State demoEnv { id := 7, connected := true } "M 1 5 5 6 900 9 0 QQ 3" =
      (demoC10State, []) ∧
    handleGameMessageV2 demoC10State demoEnv { id := 7, connected := true } "M 1 5 5 6 900 9 0 QQ 3" =
      (demoC10State, []) :=
  C10_unroutable_game_frame_dropped.1 demoC10State demoEnv { id := 7, connected := true }
    "M 1 5 5 6 900 9 0 QQ 3" rfl

end Tunneler

namespace Tunneler

/-- C3: `broadcastToRoom(frame, excludeId)` attempts a send of exactly the
given frame to exactly those player entries whose id differs from the
excluded id and whose stored connection is in the connected state; with the
exclusion omitted (null), every player with a live connection receives it,
including the player that triggered the call. -/
theorem C3_broadcast_exclusion (room : GameRoom) (sendFail : Nat → Bool) (msg : Frame)
    (ex : Option Nat) :
    (∀ (w : Nat) (f : Frame) (ok : Bool),
       Event.sendUTF w f ok ∈ room.broadcastToRoom sendFail msg ex ↔
         (f = msg ∧ ok = ! sendFail w ∧
          ∃ pid pobj, (pid, pobj) ∈ room.players ∧ pobj.ws.id = w ∧
            some pid ≠ ex ∧ pobj.ws.connected = true)) ∧
    (∀ c, Event.setStarted c ∉ room.broadcastToRoom sendFail msg ex) ∧
    (ex = none → ∀ p ∈ room.players, p.2.ws.connected = true →
       Event.sendUTF p.2.ws.id msg (! sendFail p.2.ws.id) ∈
         room.broadcastToRoom sendFail msg none) := by
  refine ⟨?_, ?_, ?_⟩
  · intro w f ok
    unfold GameRoom.broadcastToRoom
    rw [List.mem_filterMap]
    constructor
    · rintro ⟨p, hp, hf⟩
      by_cases hc : some p.1 ≠ ex ∧ p.2.ws.connected
      · rw [if_pos hc] at hf
        injection hf with hf
        injection hf with h1 h2 h3
        exact ⟨h2.symm, by rw [← h1, h3], p.1, p.2, by simpa using hp, h1, hc.1, hc.2⟩
      · rw [if_neg hc] at hf
        exact absurd hf (by simp)
    · rintro ⟨rfl, rfl, pid, pobj, hmem, hw, hne, hcon⟩
      refine ⟨(pid, pobj), hmem, ?_⟩
      rw [if_pos ⟨hne, hcon⟩, hw]
  · intro c hc
    unfold GameRoom.broadcastToRoom at hc
    rw [List.mem_filterMap] at hc
    obtain ⟨p, hp, hf⟩ := hc
    by_cases hcc : some p.1 ≠ ex ∧ p.2.ws.connected
    · rw [if_pos hcc] at hf
      exact absurd hf (by simp)
    · rw [if_neg hcc] at hf
      exact absurd hf (by simp)
  · intro hex p hp hcon
    unfold GameRoom.broadcastToRoom
    rw [List.mem_filterMap]
    exact ⟨p, hp, by rw [if_pos ⟨by simp, hcon⟩]⟩

theorem C3_broadcast_exclusion_witness :
    Event.sendUTF 3 (Frame.raw "F 1") true ∈
      demoC3Room.broadcastToRoom (fun _ => false) (Frame.raw "F 1") none :=
  (C3_broadcast_exclusion demoC3Room (fun _ => false) (Frame.raw "F 1") none).2.2 rfl
    (3, { ws := { id := 3, connected := true }, playerData := { name := "C" } })
    (by decide) rfl

end Tunneler

namespace Tunneler

theorem attemptsOf_broadcast (l : List (Nat × PlayerObj)) (sendFail : Nat → Bool)
    (msg : Frame) (ex : Option Nat) :
    attemptsOf (l.filterMap (fun p =>
      if some p.1 ≠ ex ∧ p.2.ws.connected then
        some (.sendUTF p.2.ws.id msg (! sendFail p.2.ws.id))
      else none)) =
    (l.filter (fun p => decide (some p.1 ≠ ex ∧ p.2.ws.connected = true))).map
      (fun p => (p.2.ws.id, msg)) := by
  induction l with
  | nil => rfl
  | cons p t ih =>
    rw [List.filterMap_cons, List.filter_cons]
    by_cases hc : some p.1 ≠ ex ∧ p.2.ws.connected = true
    · rw [if_pos hc]
      have hd : decide (some p.1 ≠ ex ∧ p.2.ws.connected = true) = true := decide_eq_true hc
      rw [hd]
      simp only [if_true, List.map_cons]
      unfold attemptsOf at ih ⊢
      rw [List.filterMap_cons]
      dsimp only
      rw [ih]
    · rw [if_neg hc]
      have hd : decide (some p.1 ≠ ex ∧ p.2.ws.connected = true) = false :=
        decide_eq_false hc
      rw [hd]
      simp only [Bool.false_eq_true, if_false]
      exact ih

theorem processAIPlayers_room_sendFail (room : GameRoom) (env : Env) (g : Nat → Bool) :
    (processAIPlayers room { env with sendFail := g }).1 = (processAIPlayers room env).1 := by
  unfold processAIPlayers
  split_ifs <;> rfl

/-- C4: per-recipient send failures are isolated and invisible to server
state.  The list of attempted deliveries of a broadcast is the same for
every transport failure oracle and equals, in order, the connected,
non-excluded player entries (so one failing recipient never removes a later
recipient from the attempt list); the post-state of the game-message
handler is identical for every failure oracle; and the trace append that
precedes the broadcast survives in the stored room whatever the transport
does.  The send primitive itself never raises synchronously (failures are
modelled as the outcome bit of an attempted send, matching the
fire-and-forget transport). -/
theorem C4_broadcast_failure_isolated :
    (∀ (room : GameRoom) (f g : Nat → Bool) (msg : Frame) (ex : Option Nat),
       attemptsOf (room.broadcastToRoom f msg ex) =
       attemptsOf (room.broadcastToRoom g msg ex)) ∧
    (∀ (room : GameRoom) (sendFail : Nat → Bool) (msg : Frame) (ex : Option Nat),
       attemptsOf (room.broadcastToRoom sendFail msg ex) =
         (room.players.filter
           (fun p => decide (some p.1 ≠ ex ∧ p.2.ws.connected = true))).map
           (fun p => (p.2.ws.id, msg))) ∧
    (∀ (s : ServerState) (env : Env) (g : Nat → Bool) (ws : WsConn) (data : String),
       (handleGameMessage s env ws data).1 =
       (handleGameMessage s { env with sendFail := g } ws data).1) ∧
    (∀ (s : ServerState) (env : Env) (ws : WsConn) (data : String) (pi : PlayerInfo)
       (room : GameRoom),
       mapGet s.connectionToPlayer ws.id = some pi →
       s.roomManager.getRoom pi.roomCode = some room →
       ∃ rest, ((handleGameMessage s env ws data).1.roomManager.getRoom pi.roomCode).map
           GameRoom.trace = some (room.trace ++ [Frame.raw data] ++ rest)) := by
  refine ⟨?_, ?_, ?_, ?_⟩
  · intro room f g msg ex
    unfold GameRoom.broadcastToRoom
    rw [attemptsOf_broadcast, attemptsOf_broadcast]
  · intro room sendFail msg ex
    unfold GameRoom.broadcastToRoom
    rw [attemptsOf_broadcast]
  · intro s env g ws data
    unfold handleGameMessage
    cases hpi : mapGet s.connectionToPlayer ws.id with
    | none => rfl
    | some pi =>
      dsimp only
      cases hroom : s.roomManager.getRoom pi.roomCode with
      | none => rfl
      | some room =>
        dsimp only
        by_cases hai : 0 < (room.addToTrace (.raw data)).aiPlayers.length
        · rw [if_pos hai, if_pos hai]
          congr 1
          exact (processAIPlayers_room_sendFail (room.addToTrace (.raw data)) env g).symm
        · rw [if_neg hai, if_neg hai]
  · intro s env ws data pi room hpi hroom
    unfold handleGameMessage
    rw [hpi]
    dsimp only
    rw [hroom]
    dsimp only
    by_cases hai : 0 < (room.addToTrace (.raw data)).aiPlayers.length
    · rw [if_pos hai]
      have htr : ∃ fr, (processAIPlayers (room.addToTrace (.raw data)) env).1.trace =
          (room.addToTrace (.raw data)).trace ++ fr := by
        unfold processAIPlayers
        split_ifs
        · exact ⟨[], (List.append_nil _).symm⟩
        · exact ⟨_, rfl⟩
      obtain ⟨fr, hfr⟩ := htr
      refine ⟨fr, ?_⟩
      rw [getRoom_putRoom_eq, Option.map_some', hfr]
      rfl
    · rw [if_neg hai]
      refine ⟨[], ?_⟩
      rw [getRoom_putRoom_eq, List.append_nil]
      rfl

theorem C4_broadcast_failure_isolated_witness :
    ∃ rest,
      ((handleGameMessage demoC1State demoEnv { id := 1, connected := true }
          "F 1").1.roomManager.getRoom "ROOM01").map GameRoom.trace =
        some (demoC1Room.trace ++ [Frame.raw "F 1"] ++ rest) :=
  C4_broadcast_failure_isolated.2.2.2 demoC1State demoEnv { id := 1, connected := true }
    "F 1" { playerId := 1, roomCode := "ROOM01" } demoC1Room rfl rfl

end Tunneler

namespace Tunneler

theorem mapGet_of_mem_nodup {α β : Type} [DecidableEq α] {m : List (α × β)} {k : α} {v : β}
    (hnd : (m.map Prod.fst).Nodup) (hm : (k, v) ∈ m) : mapGet m k = some v := by
  induction m with
  | nil => simp at hm
  | cons p t ih =>
    rw [List.map_cons, List.nodup_cons] at hnd
    rw [mapGet_cons]
    rcases List.mem_cons.mp hm with heq | hm'
    · rw [← heq]
      rw [if_pos rfl]
    · by_cases hp : p.1 = k
      · exfalso
        apply hnd.1
        rw [hp]
        exact List.mem_map_of_mem Prod.fst hm'
      · rw [if_neg hp]
        exact ih hnd.2 hm'

/-- C2 counterexample: a room with zero connected players whose last
activity is 6 minutes old (strictly older than the claimed 5-minute
threshold) is NOT removed by `cleanupInactiveRooms`; the claim asserts it
would be removed. -/
theorem C2_cleanup_five_minute_counterexample :
    demoC2Room.players.length = 0 ∧
    5 * 60 * 1000 < (360000 : Int) - (demoC2Room.lastActivity : Int) ∧
    (demoC2Mgr.cleanupInactiveRooms 360000).getRoom "AAAAAA" = some demoC2Room := by
  refine ⟨rfl, by decide, ?_⟩
  rfl

/-- C2 amended: for a room with zero connected players,
`cleanupInactiveRooms` removes it from the directory (releasing the reverse
mappings of its players, vacuous for an empty room) if and only if its last
activity is at least 30 minutes old — the threshold of `isActive()` is 30
minutes, not 5 minutes (5 minutes is the sweep period of the timer); a
zero-player room with last activity 1 minute old is retained. -/
theorem C2_cleanup_thirty_minute_threshold (m : RoomManager) (now : Nat) (code : String)
    (room : GameRoom) (hnd : (m.rooms.map Prod.fst).Nodup)
    (h : m.getRoom code = some room) (hz : room.players = []) :
    ((m.cleanupInactiveRooms now).getRoom code = none ↔
      30 * 60 * 1000 ≤ (now : Int) - (room.lastActivity : Int)) ∧
    ((m.cleanupInactiveRooms now).getRoom code = some room ↔
      (now : Int) - (room.lastActivity : Int) < 30 * 60 * 1000) := by
  have hactive : room.isActive now =
      decide ((now : Int) - (room.lastActivity : Int) < 30 * 60 * 1000) := by
    unfold GameRoom.isActive
    rw [hz]
    simp
  have hdead : code ∈ (m.rooms.filter (fun rc => ! rc.2.isActive now)).map Prod.fst ↔
      ¬ ((now : Int) - (room.lastActivity : Int) < 30 * 60 * 1000) := by
    constructor
    · intro hin
      rw [List.mem_map] at hin
      obtain ⟨rc, hrc, hrck⟩ := hin
      rw [List.mem_filter] at hrc
      have hmemc : (code, rc.2) ∈ m.rooms := by
        rw [← hrck]
        exact hrc.1
      have hget : mapGet m.rooms code = some rc.2 := mapGet_of_mem_nodup hnd hmemc
      have hrceq : rc.2 = room := by
        have := h
        unfold RoomManager.getRoom at this
        rw [hget] at this
        injection this
      have hb := hrc.2
      rw [hrceq, hactive] at hb
      simpa using hb
    · intro hlt
      rw [List.mem_map]
      refine ⟨(code, room), ?_, rfl⟩
      rw [List.mem_filter]
      refine ⟨mapGet_mem h, ?_⟩
      rw [hactive]
      simpa using hlt
  rw [cleanup_getRoom]
  constructor
  · by_cases hin : code ∈ (m.rooms.filter (fun rc => ! rc.2.isActive now)).map Prod.fst
    · rw [if_pos hin]
      exact ⟨fun _ => not_lt.mp (hdead.mp hin), fun _ => rfl⟩
    · rw [if_neg hin]
      constructor
      · intro hc
        rw [h] at hc
        exact absurd hc (by simp)
      · intro hle
        exact absurd (hdead.mpr (not_lt.mpr hle)) hin
  · by_cases hin : code ∈ (m.rooms.filter (fun rc => ! rc.2.isActive now)).map Prod.fst
    · rw [if_pos hin]
      constructor
      · intro hc
        exact absurd hc (by simp)
      · intro hlt
        exact absurd (hdead.mp hin) (not_not_intro hlt)
    · rw [if_neg hin]
      refine ⟨fun _ => ?_, fun _ => h⟩
      by_contra hnl
      exact hin (hdead.mpr hnl)

theorem C2_cleanup_thirty_minute_threshold_witness :
    ((demoC2Mgr.cleanupInactiveRooms 60000).getRoom "AAAAAA" = some demoC2Room) ∧
    ((demoC2Mgr.cleanupInactiveRooms 1860000).getRoom "AAAAAA" = none) :=
  ⟨(C2_cleanup_thirty_minute_threshold demoC2Mgr 60000 "AAAAAA" demoC2Room
      (by decide) rfl rfl).2.mpr (by decide),
   (C2_cleanup_thirty_minute_threshold demoC2Mgr 1860000 "AAAAAA" demoC2Room
      (by decide) rfl rfl).1.mpr (by decide)⟩

end Tunneler

namespace Tunneler

theorem mapSet_append_of_fresh {α β : Type} [DecidableEq α] (m : List (α × β)) (k : α) (v : β)
    (h : ∀ p ∈ m, p.1 ≠ k) : mapSet m k v = m ++ [(k, v)] := by
  unfold mapSet
  rw [if_neg]
  simp only [List.any_eq_true, decide_eq_true_eq, not_exists]
  push_neg
  exact h

theorem mapDelete_keys {α β : Type} [DecidableEq α] (m : List (α × β)) (k : α) :
    (mapDelete m k).map Prod.fst = (m.map Prod.fst).filter (fun a => decide (a ≠ k)) := by
  induction m with
  | nil => rfl
  | cons p t ih =>
    by_cases hp : p.1 = k
    · have h1 : mapDelete (p :: t) k = mapDelete t k := by simp [mapDelete, hp]
      rw [h1, List.map_cons, List.filter_cons, ih]
      simp [hp]
    · have h1 : mapDelete (p :: t) k = p :: mapDelete t k := by simp [mapDelete, hp]
      rw [h1, List.map_cons, List.map_cons, List.filter_cons, ih]
      simp [hp]

/-- C5 counterexample: on a fresh room, the sequence removePlayer(1) then
addPlayer leaves the player map holding id 1, but the claimed set equation
(returned ids minus removed ids) yields the empty set: the ids returned by
addPlayer are not disjoint from ids passed to earlier removePlayer calls. -/
theorem C5_membership_counterexample :
    ¬ ((demoC5Run.room.players.map Prod.fst).toFinset =
        demoC5Run.returned.toFinset \ demoC5Run.removed.toFinset) := by
  decide

theorem runRoomOps_invariant (now : Nat) (ops : List RoomOp) :
    ∀ (r : RunResult),
    (r.room.players.map Prod.fst).toFinset = r.returned.toFinset \ r.removed.toFinset →
    (∀ i ∈ r.returned, i ≤ r.room.playerIdCounter) →
    (∀ i ∈ r.removed, i ≤ r.room.playerIdCounter) →
    r.returned.Pairwise (· < ·) →
    validOpsFrom now r ops = true →
    (((runRoomOps now r ops).room.players.map Prod.fst).toFinset =
      (runRoomOps now r ops).returned.toFinset \ (runRoomOps now r ops).removed.toFinset) ∧
    (runRoomOps now r ops).returned.Pairwise (· < ·) := by
  induction ops with
  | nil =>
    intro r h1 h2 h3 h5 hv
    exact ⟨h1, h5⟩
  | cons op t ih =>
    intro r h1 h2 h3 h5 hv
    cases op with
    | add ws name =>
      unfold runRoomOps
      unfold validOpsFrom at hv
      dsimp only at hv ⊢
      set c := r.room.playerIdCounter with hc
      have hsnd : (r.room.addPlayer ws name now).2 = c + 1 := rfl
      rw [hsnd] at hv ⊢
      have hkeysle : ∀ i ∈ r.room.players.map Prod.fst, i ≤ c := by
        intro i hi
        have : i ∈ (r.room.players.map Prod.fst).toFinset := List.mem_toFinset.mpr hi
        rw [h1] at this
        exact h2 i (List.mem_toFinset.mp (Finset.mem_sdiff.mp this).1)
      have hfresh : ∀ p ∈ r.room.players, p.1 ≠ c + 1 := by
        intro p hp hpc
        have := hkeysle p.1 (List.mem_map_of_mem Prod.fst hp)
        omega
      have hplayers : ((r.room.addPlayer ws name now).1).players =
          r.room.players ++ [(c + 1, ⟨ws, ⟨name⟩⟩)] := by
        unfold GameRoom.addPlayer
        dsimp only
        exact mapSet_append_of_fresh _ _ _ hfresh
      have hcounter : ((r.room.addPlayer ws name now).1).playerIdCounter = c + 1 := rfl
      refine ih _ ?_ ?_ ?_ ?_ hv
      · rw [hplayers]
        dsimp only
        rw [List.map_append, List.toFinset_append, List.toFinset_append]
        rw [h1]
        have hc1rem : (c + 1) ∉ r.removed.toFinset := by
          rw [List.mem_toFinset]
          intro hmem
          have := h3 _ hmem
          omega
        rw [Finset.union_sdiff_distrib]
        congr 1
        simp only [List.map_cons, List.map_nil, List.toFinset_cons, List.toFinset_nil]
        rw [Finset.sdiff_eq_self_iff_disjoint.mpr]
        simp [Finset.disjoint_singleton_left, hc1rem]
      · intro i hi
        rw [hcounter]
        rcases List.mem_append.mp hi with hi | hi
        · have := h2 i hi
          omega
        · simp at hi
          omega
      · intro i hi
        rw [hcounter]
        have := h3 i hi
        omega
      · rw [List.pairwise_append]
        refine ⟨h5, by simp, ?_⟩
        intro a ha b hb
        simp at hb
        subst hb
        have := h2 a ha
        omega
    | remove pid =>
      unfold runRoomOps
      unfold validOpsFrom at hv
      rw [Bool.and_eq_true, decide_eq_true_eq] at hv
      obtain ⟨hpid, hv⟩ := hv
      have hkeys : ((r.room.removePlayer pid now).players.map Prod.fst) =
          (r.room.players.map Prod.fst).filter (fun a => decide (a ≠ pid)) := by
        unfold GameRoom.removePlayer
        exact mapDelete_keys _ _
      refine ih _ ?_ ?_ ?_ h5 hv
      · rw [hkeys]
        dsimp only
        rw [List.toFinset_filter, h1]
        rw [List.toFinset_append]
        simp only [List.map_cons, List.map_nil, List.toFinset_cons, List.toFinset_nil,
          decide_eq_true_eq]
        rw [Finset.filter_ne', Finset.erase_eq, sdiff_sdiff]
        rfl
      · intro i hi
        exact h2 i hi
      · intro i hi
        dsimp only at hi
        rcases List.mem_append.mp hi with hi | hi
        · exact h3 i hi
        · simp at hi
          subst hi
          exact h2 i hpid

theorem runRoomOps_returned_monotone (now : Nat) (ops : List RoomOp) :
    ∀ (r : RunResult),
    (∀ i ∈ r.returned, i ≤ r.room.playerIdCounter) →
    r.returned.Pairwise (· < ·) →
    (∀ i ∈ (runRoomOps now r ops).returned,
        i ≤ (runRoomOps now r ops).room.playerIdCounter) ∧
    (runRoomOps now r ops).returned.Pairwise (· < ·) := by
  induction ops with
  | nil =>
    intro r h2 h5
    exact ⟨h2, h5⟩
  | cons op t ih =>
    intro r h2 h5
    cases op with
    | add ws name =>
      unfold runRoomOps
      dsimp only
      set c := r.room.playerIdCounter with hc
      have hsnd : (r.room.addPlayer ws name now).2 = c + 1 := rfl
      rw [hsnd]
      have hcounter : ((r.room.addPlayer ws name now).1).playerIdCounter = c + 1 := rfl
      refine ih _ ?_ ?_
      · intro i hi
        rw [hcounter]
        rcases List.mem_append.mp hi with hi | hi
        · have := h2 i hi
          omega
        · simp at hi
          omega
      · rw [List.pairwise_append]
        refine ⟨h5, by simp, ?_⟩
        intro a ha b hb
        simp at hb
        subst hb
        have := h2 a ha
        omega
    | remove pid =>
      unfold runRoomOps
      have hcounter : (r.room.removePlayer pid now).playerIdCounter =
          r.room.playerIdCounter := rfl
      refine ih _ ?_ h5
      intro i hi
      dsimp only at hi ⊢
      rw [hcounter]
      exact h2 i hi

/-- C5 amended: for every sequence of addPlayer/removePlayer operations on
a fresh room, (1) if each removePlayer call targets an id previously
returned by addPlayer (the caller invariant of the handlers), the set of
ids in the player map equals exactly the returned ids minus the removed
ids; and (2) unconditionally — for every operation sequence whatsoever —
each addPlayer call returns a strictly larger id than every previous call
on that room (the counter only increments, so no id is ever reused).  The
unrestricted set equation fails only when removePlayer is called with an
id that addPlayer has not yet returned. -/
theorem C5_membership_and_monotone_ids (code : String) (hostId : Option Nat)
    (config : Option RoomConfig) (now0 now : Nat) (ops : List RoomOp) :
    (validOpsFrom now ⟨GameRoom.new code hostId config now0, [], []⟩ ops = true →
      (((runRoomOps now ⟨GameRoom.new code hostId config now0, [], []⟩ ops).room.players.map
          Prod.fst).toFinset =
        (runRoomOps now ⟨GameRoom.new code hostId config now0, [], []⟩ ops).returned.toFinset \
        (runRoomOps now ⟨GameRoom.new code hostId config now0, [], []⟩ ops).removed.toFinset)) ∧
    (runRoomOps now ⟨GameRoom.new code hostId config now0, [], []⟩
        ops).returned.Pairwise (· < ·) :=
  ⟨fun hvalid =>
    (runRoomOps_invariant now ops ⟨GameRoom.new code hostId config now0, [], []⟩
      (by simp [GameRoom.new]) (by simp) (by simp) (by simp) hvalid).1,
   (runRoomOps_returned_monotone now ops ⟨GameRoom.new code hostId config now0, [], []⟩
      (by simp) (by simp)).2⟩

theorem C5_membership_and_monotone_ids_witness :
    (((runRoomOps 0 ⟨GameRoom.new "AAAAAA" none none 0, [], []⟩
        [RoomOp.add { id := 1, connected := true } "A",
         RoomOp.add { id := 2, connected := true } "B",
         RoomOp.remove 1]).room.players.map Prod.fst).toFinset =
      (runRoomOps 0 ⟨GameRoom.new "AAAAAA" none none 0, [], []⟩
        [RoomOp.add { id := 1, connected := true } "A",
         RoomOp.add { id := 2, connected := true } "B",
         RoomOp.remove 1]).returned.toFinset \
      (runRoomOps 0 ⟨GameRoom.new "AAAAAA" none none 0, [], []⟩
        [RoomOp.add { id := 1, connected := true } "A",
         RoomOp.add { id := 2, connected := true } "B",
         RoomOp.remove 1]).removed.toFinset) ∧
    (runRoomOps 0 ⟨GameRoom.new "AAAAAA" none none 0, [], []⟩
        [RoomOp.remove 7,
         RoomOp.add { id := 1, connected := true } "A",
         RoomOp.add { id := 2, connected := true } "B"]).returned.Pairwise (· < ·) :=
  ⟨(C5_membership_and_monotone_ids "AAAAAA" none none 0 0
      [RoomOp.add { id := 1, connected := true } "A",
       RoomOp.add { id := 2, connected := true } "B",
       RoomOp.remove 1]).1 (by decide),
   (C5_membership_and_monotone_ids "AAAAAA" none none 0 0
      [RoomOp.remove 7,
       RoomOp.add { id := 1, connected := true } "A",
       RoomOp.add { id := 2, connected := true } "B"]).2⟩

end Tunneler

namespace Tunneler

/-- C8 counterexample: `getRoom` performs a plain map access with no case
normalization; the all-lowercase form of a stored uppercase code does not
resolve to the room. -/
theorem C8_case_normalization_counterexample :
    demoC8Mgr.getRoom "ABC234" = some demoC8Room ∧
    demoC8Mgr.getRoom "abc234" = none :=
  ⟨rfl, rfl⟩

/-- C8 amended: `getRoom` is a single, case-sensitive map access: a code
resolves if and only if an entry with exactly that string is stored; the
code generator draws every character from the fixed uppercase/digit
alphabet, so only the exact (uppercase) form of a generated code
resolves. -/
theorem C8_lookup_exact_single_access (m : RoomManager) (code : String) :
    ((m.getRoom code).isSome ↔ code ∈ m.rooms.map Prod.fst) ∧
    (∀ (rolls : List (Fin 32)), ∀ c ∈ (generateRoomCodeOnce rolls).toList,
      c ∈ roomCodeChars) := by
  constructor
  · unfold RoomManager.getRoom mapGet
    rw [Option.isSome_map']
    rw [List.find?_isSome]
    constructor
    · rintro ⟨p, hp, hdec⟩
      rw [decide_eq_true_eq] at hdec
      rw [← hdec]
      exact List.mem_map_of_mem Prod.fst hp
    · intro hmem
      rw [List.mem_map] at hmem
      obtain ⟨p, hp, hpk⟩ := hmem
      exact ⟨p, hp, by rw [decide_eq_true_eq]; exact hpk⟩
  · intro rolls c hc
    unfold generateRoomCodeOnce at hc
    have hcl : (String.mk (rolls.map (fun r => roomCodeChars.getD r.val 'A'))).toList =
        rolls.map (fun r => roomCodeChars.getD r.val 'A') := rfl
    rw [hcl, List.mem_map] at hc
    obtain ⟨r, hr, hrc⟩ := hc
    rw [← hrc]
    have hlen : r.val < roomCodeChars.length := by
      have := r.isLt
      have hl : roomCodeChars.length = 32 := by decide
      omega
    rw [List.getD_eq_getElem _ _ hlen]
    exact List.getElem_mem _

theorem C8_lookup_exact_single_access_witness :
    (demoC8Mgr.getRoom "ABC234").isSome :=
  (C8_lookup_exact_single_access demoC8Mgr "ABC234").1.mpr (by decide)

end Tunneler
